import Mathlib

/-! Name resolution from a configuration string.

A shallow embedding of `nameresolution/configurestring/configurestring.go` and
`nameresolution/configurestring/configurestring_metadata.go`.

Conventions of the embedding.

* A Go `error` is a `GoError` carrying its text; the `nil` error is `none`.
* A Go `map[string]V` is `GoMap V`: `none` is the nil map, `some kvs` lists the
  entries.  Entries are listed in increasing key order, the order in which
  `json.Marshal` writes a map.  A lookup returns the first entry with the key.
* A Go slice is a `List`; the nil slice and the empty slice are both `[]`
  (`len`, `range` and `append` do not tell them apart).
* `int` is `Int`; the 64-bit range is checked where a value enters (`ParseInt`).
* `rand.Int()` is an explicit argument `r : Nat` of `ResolveID`.
* A run-time panic (index out of range) is the result `none` of `ResolveID`.
* The serialized bytes that `json.Marshal` hands to `json.Unmarshal` are
  represented by the JSON document they spell (`JSON`).  The payload of a number
  is never inspected by this package (no field is decoded from a bare number).
* `config.Normalize`, `json.Marshal`, `json.Unmarshal`, `strconv.ParseInt` and
  `strconv.Itoa` are library calls; they are modelled after their documented
  behaviour on the values above.  The text of a library error is a fixed tag;
  only whether a call fails, and what it returns otherwise, is modelled.
-/

namespace Configurestring

/-! ## Go values -/

/-- A non-nil Go `error`, identified by its message. -/
structure GoError where
  msg : String
deriving DecidableEq, Repr

/-- Go `errors.New`. -/
def errors_New (text : String) : GoError := ⟨text⟩

/-- Go `fmt.Errorf(text + "%w", err)`: the wrapped error, `text` put in front. -/
def fmt_Errorf_w (text : String) (err : GoError) : GoError := ⟨text ++ err.msg⟩

/-- Go `errors.Join`: nil when there is nothing to join. -/
def errors_Join (errs : List GoError) : Option GoError :=
  match errs with
  | [] => none
  | e :: rest => some ⟨rest.foldl (fun acc x => acc ++ "\n" ++ x.msg) e.msg⟩

/-- Go `map[string]V`; `none` is the nil map. -/
abbrev GoMap (V : Type) := Option (List (String × V))

/-- First entry with key `k` in a list of map entries. -/
def entriesGet {V : Type} (kvs : List (String × V)) (k : String) : Option V :=
  match kvs with
  | [] => none
  | (k', v) :: rest => if k' = k then some v else entriesGet rest k

/-- Go `v, exists := m[k]`: `none` when the key is absent (also on the nil map). -/
def GoMap.get {V : Type} (m : GoMap V) (k : String) : Option V :=
  match m with
  | none => none
  | some kvs => entriesGet kvs k

/-- Go `m[k] = v` on a list of map entries: replace the entry, or add one. -/
def entriesSet {V : Type} (kvs : List (String × V)) (k : String) (v : V) : List (String × V) :=
  match kvs with
  | [] => [(k, v)]
  | (k', v') :: rest => if k' = k then (k, v) :: rest else (k', v') :: entriesSet rest k v

/-- A Go value of type `any`, as the configuration loaders produce it. -/
inductive GoAny where
  | nil
  | bool (b : Bool)
  | float64 (n : Int)
  | string (s : String)
  | slice (xs : List GoAny)
  | mapString (kvs : List (String × GoAny))
  | mapAny (kvs : List (GoAny × GoAny))

/-- A JSON document: what the bytes between `json.Marshal` and `json.Unmarshal` spell. -/
inductive JSON where
  | null
  | bool (b : Bool)
  | number (n : Int)
  | string (s : String)
  | array (xs : List JSON)
  | object (kvs : List (String × JSON))

/-! ## Library calls: `config.Normalize`, `json.Marshal`, `json.Unmarshal` -/

mutual
/-- Library `config.Normalize` of dapr/kit: maps with `any` keys become maps with string keys,
    recursively through maps and slices; a key that is not a string is an error. -/
def Normalize : GoAny → Except GoError GoAny
  | .mapAny kvs => do
      let m2 ← NormalizeAnyEntries kvs
      pure (.mapString m2)
  | .mapString kvs => do
      let m2 ← NormalizeStringEntries kvs
      pure (.mapString m2)
  | .slice xs => do
      let ys ← NormalizeElems xs
      pure (.slice ys)
  | i => pure i
/-- The `map[interface{}]interface{}` case of `config.Normalize`. -/
def NormalizeAnyEntries : List (GoAny × GoAny) → Except GoError (List (String × GoAny))
  | [] => pure []
  | (.string strKey, v) :: rest => do
      let v2 ← Normalize v
      let rest2 ← NormalizeAnyEntries rest
      pure ((strKey, v2) :: rest2)
  | _ :: _ => throw (errors_New "error parsing config field")
/-- The `map[string]interface{}` case of `config.Normalize`. -/
def NormalizeStringEntries : List (String × GoAny) → Except GoError (List (String × GoAny))
  | [] => pure []
  | (k, v) :: rest => do
      let v2 ← Normalize v
      let rest2 ← NormalizeStringEntries rest
      pure ((k, v2) :: rest2)
/-- The `[]interface{}` case of `config.Normalize`. -/
def NormalizeElems : List GoAny → Except GoError (List GoAny)
  | [] => pure []
  | v :: rest => do
      let v2 ← Normalize v
      let rest2 ← NormalizeElems rest
      pure (v2 :: rest2)
end

mutual
/-- Library `json.Marshal` on a value of type `any`: a map whose keys are not strings has no
    JSON encoding. -/
def Marshal : GoAny → Except GoError JSON
  | .nil => pure .null
  | .bool b => pure (.bool b)
  | .float64 n => pure (.number n)
  | .string s => pure (.string s)
  | .slice xs => do
      let ys ← MarshalElems xs
      pure (.array ys)
  | .mapString kvs => do
      let fields ← MarshalEntries kvs
      pure (.object fields)
  | .mapAny _ => throw (errors_New "json: unsupported type: map[interface {}]interface {}")
/-- Elements of a slice, marshalled in order. -/
def MarshalElems : List GoAny → Except GoError (List JSON)
  | [] => pure []
  | v :: rest => do
      let j ← Marshal v
      let rest2 ← MarshalElems rest
      pure (j :: rest2)
/-- Entries of a string-keyed map, marshalled in order. -/
def MarshalEntries : List (String × GoAny) → Except GoError (List (String × JSON))
  | [] => pure []
  | (k, v) :: rest => do
      let j ← Marshal v
      let rest2 ← MarshalEntries rest
      pure ((k, j) :: rest2)
end

mutual
/-- Library `json.Unmarshal` into a value of type `any`. -/
def unmarshalAny : JSON → GoAny
  | .null => .nil
  | .bool b => .bool b
  | .number n => .float64 n
  | .string s => .string s
  | .array xs => .slice (unmarshalAnyElems xs)
  | .object kvs => .mapString (unmarshalAnyEntries kvs)
/-- Elements of a JSON array, decoded in order. -/
def unmarshalAnyElems : List JSON → List GoAny
  | [] => []
  | j :: rest => unmarshalAny j :: unmarshalAnyElems rest
/-- Members of a JSON object, decoded in order. -/
def unmarshalAnyEntries : List (String × JSON) → List (String × GoAny)
  | [] => []
  | (k, j) :: rest => (k, unmarshalAny j) :: unmarshalAnyEntries rest
end

/-- The error `json.Unmarshal` reports for a JSON value of the wrong kind. -/
def unmarshalTypeError : GoError := errors_New "json: cannot unmarshal value into Go value"

/-- The error `json.Unmarshal` reports for a bad value under the `,string` option. -/
def stringTagError : GoError := errors_New "json: invalid use of ,string struct tag"

/-- Library `encoding/json` matches an object key to a struct field by name, ignoring the case of
    ASCII letters (none of the field names of this package has a non-ASCII fold). -/
def foldName (key : String) : List Char := key.data.map Char.toUpper

/-- Library `json.Unmarshal` into a `string`: `null` leaves the value as it is. -/
def unmarshalString (cur : String) : JSON → Except GoError String
  | .null => pure cur
  | .string s => pure s
  | _ => throw unmarshalTypeError

/-- Value of a run of ASCII decimal digits, `none` if empty or not all digits. -/
def parseDigits (cs : List Char) : Option Nat :=
  match cs with
  | [] => none
  | _ :: _ =>
    cs.foldl (fun acc c =>
      match acc with
      | none => none
      | some n => if c.isDigit then some (n * 10 + (c.toNat - 48)) else none) (some 0)

/-- Library `strconv.ParseInt(s, 10, 64)`: an optional sign, then decimal digits, within 64 bits. -/
def ParseInt (cs : List Char) : Option Int :=
  let signed : Option Int :=
    match cs with
    | '+' :: rest => (parseDigits rest).map (fun n => (n : Int))
    | '-' :: rest => (parseDigits rest).map (fun n => - (n : Int))
    | _ => (parseDigits cs).map (fun n => (n : Int))
  match signed with
  | some n => if - (2 : Int) ^ 63 ≤ n ∧ n < (2 : Int) ^ 63 then some n else none
  | none => none

/-- Library `json.Unmarshal` into an `int` field tagged `,string`: the JSON value must be a string
    holding `null` or a decimal integer (first byte `-` or a digit), or be `null`; a bare number,
    and every other string, is an error. -/
def unmarshalQuotedInt (cur : Int) : JSON → Except GoError Int
  | .null => pure cur
  | .string item =>
    match item.data with
    | [] => throw stringTagError
    | c :: _ =>
      if c = 'n' then
        if item = "null" then pure cur else throw stringTagError
      else if c = '-' ∨ c.isDigit then
        match ParseInt item.data with
        | some n => pure n
        | none => throw unmarshalTypeError
      else throw stringTagError
  | _ => throw stringTagError

/-- Library `json.Unmarshal` into a `map[string]string`: `null` gives the nil map, an object is
    merged into the map (made when nil), member by member. -/
def unmarshalStringMap (cur : GoMap String) : JSON → Except GoError (GoMap String)
  | .null => pure none
  | .object kvs => do
      let m ← kvs.foldlM (fun (m : List (String × String)) kv => do
        let v ← unmarshalString "" kv.2
        pure (entriesSet m kv.1 v)) (cur.getD [])
      pure (some m)
  | _ => throw unmarshalTypeError

/-! ## `configurestring.go`: the address table -/

/-- The struct `address`; its JSON names are `ipv4`, `ipv6`, `port` (tagged `,string`) and
    `extendedInfo`. -/
structure address where
  IPV4 : String
  IPV6 : String
  Port : Int
  ExtendedInfo : GoMap String
deriving DecidableEq, Repr

/-- The zero value of `address`. -/
def address.zero : address := ⟨"", "", 0, none⟩

/-- Library `json.Unmarshal`, one object member decoded into the struct `address` (members that
    name no field are skipped). -/
def unmarshalAddressField (a : address) (kv : String × JSON) : Except GoError address :=
  if foldName kv.1 = foldName "ipv4" then do
    let v ← unmarshalString a.IPV4 kv.2
    pure { a with IPV4 := v }
  else if foldName kv.1 = foldName "ipv6" then do
    let v ← unmarshalString a.IPV6 kv.2
    pure { a with IPV6 := v }
  else if foldName kv.1 = foldName "port" then do
    let v ← unmarshalQuotedInt a.Port kv.2
    pure { a with Port := v }
  else if foldName kv.1 = foldName "extendedInfo" then do
    let v ← unmarshalStringMap a.ExtendedInfo kv.2
    pure { a with ExtendedInfo := v }
  else pure a

/-- Library `json.Unmarshal` into the struct `address`: `null` leaves it as it is. -/
def unmarshalAddress (a : address) : JSON → Except GoError address
  | .null => pure a
  | .object kvs => kvs.foldlM unmarshalAddressField a
  | _ => throw unmarshalTypeError

/-- Library `json.Unmarshal` into a fresh `[]address`. -/
def unmarshalAddressSlice : JSON → Except GoError (List address)
  | .null => pure []
  | .array xs => xs.mapM (unmarshalAddress address.zero)
  | _ => throw unmarshalTypeError

/-- Library `json.Unmarshal(data, &configuration)` for `configuration : map[string][]address`:
    `null` sets the map to nil; an object is decoded member by member into the map (made when
    nil), each member into a fresh slice. -/
def unmarshalTable (configuration : GoMap (List address)) :
    JSON → Except GoError (GoMap (List address))
  | .null => pure none
  | .object kvs => do
      let m ← kvs.foldlM (fun (m : List (String × List address)) kv => do
        let v ← unmarshalAddressSlice kv.2
        pure (entriesSet m kv.1 v)) (configuration.getD [])
      pure (some m)
  | _ => throw unmarshalTypeError

/-- The function `parseAddressConfig`. -/
def parseAddressConfig (rawConfig : GoAny) : Except GoError (GoMap (List address)) :=
  match Normalize rawConfig with
  | .error err => .error err
  | .ok rawConfig =>
    match Marshal rawConfig with
    | .error err => .error (fmt_Errorf_w "error serializing to json: " err)
    | .ok data =>
      let configuration : GoMap (List address) := some []
      match unmarshalTable configuration data with
      | .error err => .error (fmt_Errorf_w "error deserializing to configSpec: " err)
      | .ok configuration => .ok configuration

/-! ## `configurestring_metadata.go` -/

/-- The constant `JSON_STRING_VALUE`. -/
def JSON_STRING_VALUE : String := "jsonStringValue"
/-- The constant `YAML_STRING_VALUE`. -/
def YAML_STRING_VALUE : String := "yamlStringValue"
/-- The constant `JSON_FILE_VALUE`. -/
def JSON_FILE_VALUE : String := "jsonFileValue"
/-- The constant `YAML_FILE_VALUE`. -/
def YAML_FILE_VALUE : String := "yamlFileValue"

/-- The struct `nameresolution.Instance`, the fields this package reads. -/
structure Instance where
  AppID : String
  Address : String
  DaprInternalPort : Int
  Namespace : String

/-- The struct `nameresolution.Metadata`, the fields this package reads. -/
structure Metadata where
  Instance : Instance
  Configuration : GoAny

/-- The struct `configStringMetadata`. -/
structure configStringMetadata where
  valueType : String
  value : GoAny
  appID : String
  namespace_ : String
  hostAddress : String
  port : Int

/-- The struct `configData`; its JSON names are `valueType` and `value`. -/
structure configData where
  ValueType : String
  Value : GoAny

/-- Library `json.Unmarshal`, one object member decoded into the struct `configData`. -/
def unmarshalConfigDataField (c : configData) (kv : String × JSON) : Except GoError configData :=
  if foldName kv.1 = foldName "valueType" then do
    let v ← unmarshalString c.ValueType kv.2
    pure { c with ValueType := v }
  else if foldName kv.1 = foldName "value" then
    pure { c with Value := unmarshalAny kv.2 }
  else pure c

/-- Library `json.Unmarshal(data, &configuration)` for `configuration : configData`. -/
def unmarshalConfigData (c : configData) : JSON → Except GoError configData
  | .null => pure c
  | .object kvs => kvs.foldlM unmarshalConfigDataField c
  | _ => throw unmarshalTypeError

/-- The function `parseConfig`. -/
def parseConfig (rawConfig : GoAny) : Except GoError configData :=
  match Normalize rawConfig with
  | .error err => .error err
  | .ok rawConfig =>
    match Marshal rawConfig with
    | .error err => .error (fmt_Errorf_w "error serializing to json: " err)
    | .ok data =>
      match unmarshalConfigData ⟨"", .nil⟩ data with
      | .error err => .error (fmt_Errorf_w "error deserializing to configSpec: " err)
      | .ok configuration => .ok configuration

/-- The method `configStringMetadata.InitWithMetadata`: the receiver after the call, and the
    error returned. -/
def InitWithMetadata (m : configStringMetadata) (meta : Metadata) :
    configStringMetadata × Option GoError :=
  let m := { m with appID := meta.Instance.AppID }
  if m.appID = "" then (m, some (errors_New "name is missing"))
  else
    let m := { m with hostAddress := meta.Instance.Address }
    if m.hostAddress = "" then (m, some (errors_New "address is missing"))
    else
      let m := { m with port := meta.Instance.DaprInternalPort }
      if m.port = 0 then (m, some (errors_New "port is missing or invalid"))
      else
        let m := { m with namespace_ := meta.Instance.Namespace }
        match parseConfig meta.Configuration with
        | .error err => (m, some err)
        | .ok configData =>
          ({ m with valueType := configData.ValueType, value := configData.Value }, none)

/-! ## `configurestring.go`: the resolver -/

/-- The struct `Resolver`: the address table and the stored configuration (the run context and
    the logger are never read). -/
structure Resolver where
  appAddress : GoMap (List address)
  configure : configStringMetadata

/-- The struct `nameresolution.ResolveRequest`, the fields this package reads. -/
structure ResolveRequest where
  ID : String
  Data : GoMap String

/-- The function `NewResolver`: an empty, non-nil table and a zero configuration. -/
def NewResolver : Resolver :=
  { appAddress := some [], configure := ⟨"", .nil, "", "", "", 0⟩ }

/-- The function `resolveAppAddress`; `.ok none` is the result `nil, nil`. -/
def resolveAppAddress (configure : configStringMetadata) :
    Except GoError (GoMap (List address)) :=
  if configure.valueType = JSON_STRING_VALUE then
    parseAddressConfig configure.value
  else if configure.valueType = YAML_STRING_VALUE then
    parseAddressConfig configure.value
  else if configure.valueType = JSON_FILE_VALUE then
    .ok none
  else if configure.valueType = YAML_FILE_VALUE then
    .ok none
  else .ok none

/-- The method `Resolver.Init`: the resolver after the call, and the error returned.  The error
    that `InitWithMetadata` returns is dropped, as in the source. -/
def Init (s : Resolver) (metadata : Metadata) : Resolver × Option GoError :=
  if metadata.Instance.AppID = "" then (s, some (errors_New "name is missing"))
  else if metadata.Instance.Address = "" then (s, some (errors_New "address is missing"))
  else if metadata.Instance.DaprInternalPort ≤ 0 then
    (s, some (errors_New "port is missing or invalid"))
  else
    let s := { s with configure := (InitWithMetadata s.configure metadata).1 }
    match resolveAppAddress s.configure with
    | .error err => (s, some err)
    | .ok appAddrs => ({ s with appAddress := appAddrs }, none)

/-- The request attribute, and the `extendedInfo` key, that names the virtual namespace. -/
def virtualNamespaceKey : String := "virtual-namespace"

/-- The function `sameVirtualNamespace`. -/
def sameVirtualNamespace (addresses : List address) (reqVirtualEnv : String) : List address :=
  addresses.foldl (fun result a =>
    match a.ExtendedInfo.get virtualNamespaceKey with
    | some virtualEnv => if reqVirtualEnv = virtualEnv then result ++ [a] else result
    | none => result) []

/-- The function `noneVirtualNamespace`. -/
def noneVirtualNamespace (addresses : List address) : List address :=
  addresses.foldl (fun result a =>
    match a.ExtendedInfo.get virtualNamespaceKey with
    | some _ => result
    | none => result ++ [a]) []

/-- Library `strconv.Itoa`. -/
def Itoa (n : Int) : String :=
  if n < 0 then "-" ++ Nat.repr n.natAbs else Nat.repr n.natAbs

/-- The method `Resolver.ResolveID` under the draw `r = rand.Int()`: `some (addr, err)` is the
    pair returned, `none` is a run-time panic at the index expression. -/
def ResolveID (s : Resolver) (req : ResolveRequest) (r : Nat) : Option (String × Option GoError) :=
  let found := s.appAddress.get req.ID
  let appAdress := found.getD []
  let eligibleAddresses : List address :=
    match found with
    | some _ =>
      match req.Data.get virtualNamespaceKey with
      | some virtualEnv => sameVirtualNamespace appAdress virtualEnv
      | none => []
    | none => []
  let eligibleAddresses :=
    if eligibleAddresses.length = 0 then noneVirtualNamespace appAdress else eligibleAddresses
  if eligibleAddresses.length > 0 then
    match eligibleAddresses[r % eligibleAddresses.length]? with
    | some appAddress => some (appAddress.IPV4 ++ ":" ++ Itoa appAddress.Port, none)
    | none => none
  else some ("", none)

/-- The method `Resolver.Close`: the resolver after the call, and the error returned. -/
def Close (s : Resolver) : Resolver × Option GoError :=
  let errs : List GoError := []
  (s, errors_Join errs)

/-! ## Definitions used to state the properties -/

/-- The eligible set that `ResolveID` draws from. -/
def eligibleSet (s : Resolver) (req : ResolveRequest) : List address :=
  let cands := (s.appAddress.get req.ID).getD []
  let tagged :=
    match req.Data.get virtualNamespaceKey with
    | some V => sameVirtualNamespace cands V
    | none => []
  if tagged.length = 0 then noneVirtualNamespace cands else tagged

/-- An address tagged with the virtual namespace `ns1`. -/
def taggedAddress : address := ⟨"10.0.0.1", "", 8080, some [("virtual-namespace", "ns1")]⟩

/-- An address with no virtual namespace. -/
def untaggedAddress : address := ⟨"10.0.0.2", "", 9090, some []⟩

/-- A resolver whose table lists `svc` with one tagged and one untagged address. -/
def svcResolver : Resolver :=
  { NewResolver with appAddress := some [("svc", [taggedAddress, untaggedAddress])] }

/-- A resolver whose table lists `svc` with a tagged address only. -/
def taggedOnlyResolver : Resolver :=
  { NewResolver with appAddress := some [("svc", [taggedAddress])] }

/-- The resolver of the example `svcA` of the specification. -/
def svcAResolver (ip6 : String) (c : configStringMetadata) : Resolver :=
  { appAddress := some [("svcA", [⟨"10.0.0.1", ip6, 8080, some []⟩])], configure := c }

/-- An address with its `ipv6` field replaced. -/
def setIPV6 (f : address → String) (a : address) : address := { a with IPV6 := f a }

/-- A resolver with every `ipv6` field replaced. -/
def withIPV6 (f : address → String) (s : Resolver) : Resolver :=
  { s with appAddress := s.appAddress.map (fun kvs =>
      kvs.map (fun kv => (kv.1, kv.2.map (setIPV6 f)))) }

/-- A request for `svc` in the virtual namespace `ns1`. -/
def ns1Request : ResolveRequest := ⟨"svc", some [("virtual-namespace", "ns1")]⟩

/-- A request for `svc` in the virtual namespace `ns2`. -/
def ns2Request : ResolveRequest := ⟨"svc", some [("virtual-namespace", "ns2")]⟩

/-- A request for `svc` with no attributes. -/
def plainRequest : ResolveRequest := ⟨"svc", some []⟩

/-- A request for `other` in the virtual namespace `ns1`. -/
def otherRequest : ResolveRequest := ⟨"other", some [("virtual-namespace", "ns1")]⟩

/-- A valid instance identity. -/
def validInstance : Instance := ⟨"app", "127.0.0.1", 3500, ""⟩

/-- The address table of the example of the specification, as a configuration value:
    svcA with ipv4 10.0.0.1, port "8080", empty extendedInfo. -/
def svcAValue : GoAny :=
  .mapString [("svcA", .slice [.mapString
    [("extendedInfo", .mapString []), ("ipv4", .string "10.0.0.1"), ("port", .string "8080")]])]

/-- Metadata with a valid identity and the inline configuration `svcAValue`. -/
def svcAMetadata : Metadata :=
  ⟨validInstance, .mapString [("value", svcAValue), ("valueType", .string "jsonStringValue")]⟩

/-- An address table value whose port is the non-numeric string "abc". -/
def badPortValue : GoAny :=
  .mapString [("svc", .slice [.mapString [("ipv4", .string "10.0.0.1"), ("port", .string "abc")]])]

/-- Metadata with a valid identity and the inline configuration `badPortValue`. -/
def badPortMetadata : Metadata :=
  ⟨validInstance, .mapString [("value", badPortValue), ("valueType", .string "yamlStringValue")]⟩

/-- Metadata with a valid identity whose configuration record has a number as `valueType`. -/
def undecodableMetadata : Metadata :=
  ⟨validInstance, .mapString [("value", svcAValue), ("valueType", .float64 123)]⟩

/-- Metadata with an empty appID. -/
def noNameMetadata : Metadata := { svcAMetadata with Instance := ⟨"", "127.0.0.1", 3500, ""⟩ }

/-- Metadata with an empty address. -/
def noAddressMetadata : Metadata := { svcAMetadata with Instance := ⟨"app", "", 3500, ""⟩ }

/-- Metadata with a negative port. -/
def negativePortMetadata : Metadata :=
  { svcAMetadata with Instance := ⟨"app", "127.0.0.1", -1, ""⟩ }

/-- An address table value whose only entry has no port field. -/
def missingPortValue : GoAny :=
  .mapString [("svc", .slice [.mapString [("ipv4", .string "10.0.0.1")]])]

/-- A configuration value in which the service `svc` lists `entry` among its addresses, with
    arbitrary services around it (`pre`, `post`) and arbitrary entries around it (`before`,
    `after`). -/
def configWith (pre post : List (String × GoAny)) (svc : String) (before after : List GoAny)
    (entry : GoAny) : GoAny :=
  .mapString (pre ++ (svc, .slice (before ++ entry :: after)) :: post)

/-- The JSON document of a configuration of the shape `configWith`. -/
def documentWith (pre post : List (String × JSON)) (svc : String) (before after : List JSON)
    (entry : JSON) : JSON :=
  .object (pre ++ (svc, .array (before ++ entry :: after)) :: post)

/-- The resolver after a run of `Init` calls that all returned an error; `none` when one of the
    calls returned nil. -/
def failedInits (s : Resolver) : List Metadata → Option Resolver
  | [] => some s
  | m :: ms =>
    match Init s m with
    | (s', some _) => failedInits s' ms
    | (_, none) => none

/-- The number of values `r` of `rand.Int()`, `0 ≤ r < 2^63`, for which the index expression
    `r % n` of `ResolveID` is `i`. -/
def drawCount (n i : Nat) : Nat := Nat.count (fun r => r % n = i) (2 ^ 63)

/-- A resolver whose table lists `svc` with three addresses without virtual namespace. -/
def threeResolver : Resolver :=
  { NewResolver with appAddress := some [("svc",
      [⟨"10.0.0.1", "", 8080, none⟩, ⟨"10.0.0.2", "", 8080, none⟩, ⟨"10.0.0.3", "", 8080, none⟩])] }

/-- Metadata with a valid identity and a configuration of type `jsonFileValue`. -/
def jsonFileMetadata : Metadata :=
  ⟨validInstance, .mapString
    [("value", .string "/etc/dapr/addresses.json"), ("valueType", .string "jsonFileValue")]⟩

/-- An address tagged with the virtual namespace `ns2`. -/
def otherTaggedAddress : address := ⟨"10.0.0.3", "", 7070, some [("virtual-namespace", "ns2")]⟩

/-- Metadata with the port 0. -/
def zeroPortMetadata : Metadata := { svcAMetadata with Instance := ⟨"app", "127.0.0.1", 0, ""⟩ }

/-- The resolver svcResolver after an Init with the configuration of type `jsonFileValue`. -/
def fileResolver : Resolver := (Init svcResolver jsonFileMetadata).1

/-! ## Auxiliary facts -/

theorem foldl_same_acc (V : String) (as acc : List address) :
    as.foldl (fun result a =>
      match a.ExtendedInfo.get virtualNamespaceKey with
      | some virtualEnv => if V = virtualEnv then result ++ [a] else result
      | none => result) acc
    = acc ++ as.filter (fun a => decide (a.ExtendedInfo.get virtualNamespaceKey = some V)) := by
  induction as generalizing acc with
  | nil => simp
  | cons a rest ih =>
    simp only [List.foldl_cons, ih, List.filter_cons]
    cases h : a.ExtendedInfo.get virtualNamespaceKey with
    | none => simp
    | some w =>
      by_cases hw : V = w
      · subst hw; simp
      · have hne : ¬ w = V := fun e => hw e.symm
        simp [hw, hne]

theorem foldl_none_acc (as acc : List address) :
    as.foldl (fun result a =>
      match a.ExtendedInfo.get virtualNamespaceKey with
      | some _ => result
      | none => result ++ [a]) acc
    = acc ++ as.filter (fun a => decide (a.ExtendedInfo.get virtualNamespaceKey = none)) := by
  induction as generalizing acc with
  | nil => simp
  | cons a rest ih =>
    simp only [List.foldl_cons, ih, List.filter_cons]
    cases h : a.ExtendedInfo.get virtualNamespaceKey with
    | none => simp
    | some w => simp

theorem sameVirtualNamespace_eq_filter (as : List address) (V : String) :
    sameVirtualNamespace as V
      = as.filter (fun a => decide (a.ExtendedInfo.get virtualNamespaceKey = some V)) := by
  simp [sameVirtualNamespace, foldl_same_acc]

theorem noneVirtualNamespace_eq_filter (as : List address) :
    noneVirtualNamespace as
      = as.filter (fun a => decide (a.ExtendedInfo.get virtualNamespaceKey = none)) := by
  simp [noneVirtualNamespace, foldl_none_acc]

theorem mem_sameVirtualNamespace (as : List address) (V : String) (a : address) :
    a ∈ sameVirtualNamespace as V ↔ a ∈ as ∧ a.ExtendedInfo.get virtualNamespaceKey = some V := by
  simp [sameVirtualNamespace_eq_filter]

theorem mem_noneVirtualNamespace (as : List address) (a : address) :
    a ∈ noneVirtualNamespace as ↔ a ∈ as ∧ a.ExtendedInfo.get virtualNamespaceKey = none := by
  simp [noneVirtualNamespace_eq_filter]

theorem noneVirtualNamespace_nil : noneVirtualNamespace [] = [] := rfl

theorem sameVirtualNamespace_nil (V : String) : sameVirtualNamespace [] V = [] := rfl

theorem ResolveID_eq (s : Resolver) (req : ResolveRequest) (r : Nat) :
    ResolveID s req r =
      if (eligibleSet s req).length > 0 then
        match (eligibleSet s req)[r % (eligibleSet s req).length]? with
        | some a => some (a.IPV4 ++ ":" ++ Itoa a.Port, none)
        | none => none
      else some ("", none) := by
  unfold ResolveID eligibleSet
  cases hf : s.appAddress.get req.ID with
  | none =>
    cases hd : req.Data.get virtualNamespaceKey <;>
      simp [noneVirtualNamespace_nil, sameVirtualNamespace_nil]
  | some cands =>
    cases hd : req.Data.get virtualNamespaceKey with
    | none => simp
    | some V => simp

theorem ResolveID_nil (s : Resolver) (req : ResolveRequest) (r : Nat)
    (h : eligibleSet s req = []) : ResolveID s req r = some ("", none) := by
  rw [ResolveID_eq, h]; simp

theorem ResolveID_pick (s : Resolver) (req : ResolveRequest) (r : Nat)
    (h : eligibleSet s req ≠ []) :
    ∃ a ∈ eligibleSet s req, ResolveID s req r = some (a.IPV4 ++ ":" ++ Itoa a.Port, none) := by
  have hpos : 0 < (eligibleSet s req).length := List.length_pos.mpr h
  have hlt : r % (eligibleSet s req).length < (eligibleSet s req).length := Nat.mod_lt _ hpos
  refine ⟨(eligibleSet s req)[r % (eligibleSet s req).length], List.getElem_mem _, ?_⟩
  rw [ResolveID_eq, if_pos hpos, List.getElem?_eq_getElem hlt]

theorem eligibleSet_no_attribute (s : Resolver) (req : ResolveRequest)
    (hreq : req.Data.get virtualNamespaceKey = none) :
    eligibleSet s req = noneVirtualNamespace ((s.appAddress.get req.ID).getD []) := by
  simp [eligibleSet, hreq]

theorem eligibleSet_attribute (s : Resolver) (req : ResolveRequest) (V : String)
    (hreq : req.Data.get virtualNamespaceKey = some V) :
    eligibleSet s req =
      if (sameVirtualNamespace ((s.appAddress.get req.ID).getD []) V).length = 0
      then noneVirtualNamespace ((s.appAddress.get req.ID).getD [])
      else sameVirtualNamespace ((s.appAddress.get req.ID).getD []) V := by
  unfold eligibleSet
  rw [hreq]

theorem sameVirtualNamespace_eq_nil (as : List address) (V : String)
    (h : ∀ a ∈ as, a.ExtendedInfo.get virtualNamespaceKey ≠ some V) :
    sameVirtualNamespace as V = [] := by
  rw [sameVirtualNamespace_eq_filter, List.filter_eq_nil_iff]
  intro a ha
  simpa using h a ha

theorem format_ne_empty (a : address) : a.IPV4 ++ ":" ++ Itoa a.Port ≠ "" := by
  intro h
  have hlen := congrArg String.length h
  simp [String.length_append] at hlen
  have : (":" : String).length = 1 := by decide
  omega

theorem mem_eligibleSet (s : Resolver) (req : ResolveRequest) (a : address)
    (h : a ∈ eligibleSet s req) :
    ∃ cands, s.appAddress.get req.ID = some cands ∧ a ∈ cands := by
  cases hf : s.appAddress.get req.ID with
  | none =>
    cases hd : req.Data.get virtualNamespaceKey <;>
      simp [eligibleSet, hf, hd, noneVirtualNamespace_nil, sameVirtualNamespace_nil] at h
  | some cands =>
    refine ⟨cands, rfl, ?_⟩
    unfold eligibleSet at h
    rw [hf] at h
    simp only [Option.getD_some] at h
    split at h
    · exact ((mem_noneVirtualNamespace _ _).mp h).1
    · cases hd : req.Data.get virtualNamespaceKey with
      | none => simp [hd] at h
      | some V =>
        rw [hd] at h
        exact ((mem_sameVirtualNamespace _ _ _).mp h).1

theorem entriesGet_map {V W : Type} (g : V → W) (kvs : List (String × V)) (k : String) :
    entriesGet (kvs.map (fun kv => (kv.1, g kv.2))) k = (entriesGet kvs k).map g := by
  induction kvs with
  | nil => rfl
  | cons kv rest ih =>
    obtain ⟨k', v⟩ := kv
    by_cases hk : k' = k <;> simp [entriesGet, hk, ih]

theorem sameVirtualNamespace_map (g : address → address)
    (hg : ∀ a, (g a).ExtendedInfo = a.ExtendedInfo) (as : List address) (V : String) :
    sameVirtualNamespace (as.map g) V = (sameVirtualNamespace as V).map g := by
  simp only [sameVirtualNamespace_eq_filter, List.filter_map]
  congr 1
  apply List.filter_congr
  intro a _
  simp [hg]

theorem noneVirtualNamespace_map (g : address → address)
    (hg : ∀ a, (g a).ExtendedInfo = a.ExtendedInfo) (as : List address) :
    noneVirtualNamespace (as.map g) = (noneVirtualNamespace as).map g := by
  simp only [noneVirtualNamespace_eq_filter, List.filter_map]
  congr 1
  apply List.filter_congr
  intro a _
  simp [hg]

theorem ResolveID_of_absent (s : Resolver) (req : ResolveRequest) (r : Nat)
    (hmiss : s.appAddress.get req.ID = none) :
    ResolveID s req r = some ("", none) := by
  apply ResolveID_nil
  cases hd : req.Data.get virtualNamespaceKey <;>
    simp [eligibleSet, hmiss, hd, noneVirtualNamespace_nil, sameVirtualNamespace_nil]

/-! ## Selection -/

/-- C1: when the request carries the attribute virtual-namespace = V and some candidate listed for
    the service id is tagged V, ResolveID returns ipv4:port of a candidate of that id tagged
    exactly V, for every draw. -/
theorem resolveID_namespace_match (s : Resolver) (req : ResolveRequest) (r : Nat) (V : String)
    (cands : List address)
    (hc : s.appAddress.get req.ID = some cands)
    (hreq : req.Data.get virtualNamespaceKey = some V)
    (hex : ∃ a ∈ cands, a.ExtendedInfo.get virtualNamespaceKey = some V) :
    ∃ a ∈ cands, a.ExtendedInfo.get virtualNamespaceKey = some V ∧
      ResolveID s req r = some (a.IPV4 ++ ":" ++ Itoa a.Port, none) := by
  obtain ⟨b, hb, hbV⟩ := hex
  have hmem : b ∈ sameVirtualNamespace cands V := (mem_sameVirtualNamespace _ _ _).mpr ⟨hb, hbV⟩
  have hne : sameVirtualNamespace cands V ≠ [] := List.ne_nil_of_mem hmem
  have hlen : ¬ (sameVirtualNamespace cands V).length = 0 := by
    simpa [List.length_eq_zero] using hne
  have hel : eligibleSet s req = sameVirtualNamespace cands V := by
    rw [eligibleSet_attribute s req V hreq, hc]
    simp [hlen]
  obtain ⟨a, ha, hres⟩ := ResolveID_pick s req r (by rw [hel]; exact hne)
  rw [hel] at ha
  obtain ⟨ha1, ha2⟩ := (mem_sameVirtualNamespace _ _ _).mp ha
  exact ⟨a, ha1, ha2, hres⟩

/-- C2: when the request attributes lack the key virtual-namespace, ResolveID returns ipv4:port of
    an untagged candidate of the service id if there is one, and the empty string with a nil error
    if there is none (also when tagged candidates are listed). -/
theorem resolveID_default_pool (s : Resolver) (req : ResolveRequest) (r : Nat)
    (hreq : req.Data.get virtualNamespaceKey = none) :
    ((∃ a ∈ (s.appAddress.get req.ID).getD [], a.ExtendedInfo.get virtualNamespaceKey = none) →
      ∃ a ∈ (s.appAddress.get req.ID).getD [],
        a.ExtendedInfo.get virtualNamespaceKey = none ∧
        ResolveID s req r = some (a.IPV4 ++ ":" ++ Itoa a.Port, none)) ∧
    ((¬ ∃ a ∈ (s.appAddress.get req.ID).getD [], a.ExtendedInfo.get virtualNamespaceKey = none) →
      ResolveID s req r = some ("", none)) := by
  have hel := eligibleSet_no_attribute s req hreq
  constructor
  · rintro ⟨b, hb, hbn⟩
    have hmem : b ∈ eligibleSet s req := by
      rw [hel]; exact (mem_noneVirtualNamespace _ _).mpr ⟨hb, hbn⟩
    obtain ⟨a, ha, hres⟩ := ResolveID_pick s req r (List.ne_nil_of_mem hmem)
    rw [hel] at ha
    obtain ⟨ha1, ha2⟩ := (mem_noneVirtualNamespace _ _).mp ha
    exact ⟨a, ha1, ha2, hres⟩
  · intro hno
    apply ResolveID_nil
    rw [hel, noneVirtualNamespace_eq_filter, List.filter_eq_nil_iff]
    intro a ha hA
    exact hno ⟨a, ha, by simpa using hA⟩

/-- C3: when the request carries virtual-namespace = V and no candidate of the service id is
    tagged V, ResolveID returns what the same request without the attribute returns under the same
    draw. -/
theorem resolveID_fallback (s : Resolver) (req req' : ResolveRequest) (r : Nat) (V : String)
    (hid : req'.ID = req.ID)
    (hreq : req.Data.get virtualNamespaceKey = some V)
    (hreq' : req'.Data.get virtualNamespaceKey = none)
    (hno : ∀ a ∈ (s.appAddress.get req.ID).getD [],
      a.ExtendedInfo.get virtualNamespaceKey ≠ some V) :
    ResolveID s req r = ResolveID s req' r := by
  have h1 : eligibleSet s req = eligibleSet s req' := by
    rw [eligibleSet_attribute s req V hreq, eligibleSet_no_attribute s req' hreq', hid,
      sameVirtualNamespace_eq_nil _ V hno]
    simp
  rw [ResolveID_eq s req r, ResolveID_eq s req' r, h1]

/-- C4: for a service id that is not a key of the address table, ResolveID returns the empty
    string and a nil error, for every attributes map and every draw. -/
theorem resolveID_lookup_miss (s : Resolver) (req : ResolveRequest) (r : Nat)
    (hmiss : s.appAddress.get req.ID = none) :
    ResolveID s req r = some ("", none) := by
  apply ResolveID_nil
  cases hd : req.Data.get virtualNamespaceKey <;>
    simp [eligibleSet, hmiss, hd, noneVirtualNamespace_nil, sameVirtualNamespace_nil]

theorem eligibleSet_withIPV6 (f : address → String) (s : Resolver) (req : ResolveRequest) :
    eligibleSet (withIPV6 f s) req = (eligibleSet s req).map (setIPV6 f) := by
  have hget : (withIPV6 f s).appAddress.get req.ID
      = (s.appAddress.get req.ID).map (List.map (setIPV6 f)) := by
    unfold withIPV6 GoMap.get
    cases s.appAddress with
    | none => rfl
    | some kvs => exact entriesGet_map _ kvs req.ID
  have hD : ((withIPV6 f s).appAddress.get req.ID).getD []
      = ((s.appAddress.get req.ID).getD []).map (setIPV6 f) := by
    rw [hget]; cases s.appAddress.get req.ID <;> rfl
  have hs := sameVirtualNamespace_map (setIPV6 f) (fun _ => rfl)
  have hn := noneVirtualNamespace_map (setIPV6 f) (fun _ => rfl)
  unfold eligibleSet
  rw [hD]
  cases req.Data.get virtualNamespaceKey with
  | none => simp [hn]
  | some V =>
    simp only [hs, hn, List.length_map]
    split <;> rfl

/-- C5: a non-empty ResolveID result is ipv4:port (port in base 10) of a candidate listed for the
    requested service id; replacing the ipv6 fields of the table does not change any result; and
    for the table that lists svcA with the single address 10.0.0.1, port 8080, empty extendedInfo,
    the request for svcA with no attributes resolves to 10.0.0.1:8080 under every draw. -/
theorem resolveID_result_format (s : Resolver) (req : ResolveRequest) (r : Nat) :
    (∀ addr err, ResolveID s req r = some (addr, err) → addr ≠ "" →
      ∃ cands a, s.appAddress.get req.ID = some cands ∧ a ∈ cands ∧
        addr = a.IPV4 ++ ":" ++ Itoa a.Port) ∧
    (∀ f : address → String, ResolveID (withIPV6 f s) req r = ResolveID s req r) ∧
    (∀ (ip6 : String) (c : configStringMetadata) (r' : Nat),
      ResolveID (svcAResolver ip6 c) ⟨"svcA", some []⟩ r' = some ("10.0.0.1:8080", none)) := by
  refine ⟨?_, ?_, ?_⟩
  · intro addr err hres hne
    by_cases hel : eligibleSet s req = []
    · rw [ResolveID_nil s req r hel] at hres
      simp only [Option.some.injEq, Prod.mk.injEq] at hres
      exact absurd hres.1.symm hne
    · obtain ⟨a, ha, hpick⟩ := ResolveID_pick s req r hel
      obtain ⟨cands, hc, hmem⟩ := mem_eligibleSet s req a ha
      rw [hpick] at hres
      simp only [Option.some.injEq, Prod.mk.injEq] at hres
      exact ⟨cands, a, hc, hmem, hres.1.symm⟩
  · intro f
    rw [ResolveID_eq (withIPV6 f s) req r, ResolveID_eq s req r, eligibleSet_withIPV6]
    simp only [List.length_map, List.getElem?_map]
    cases (eligibleSet s req)[r % (eligibleSet s req).length]? <;> rfl
  · intro ip6 c r'
    have hel : eligibleSet (svcAResolver ip6 c) ⟨"svcA", some []⟩
        = [⟨"10.0.0.1", ip6, 8080, some []⟩] := rfl
    rw [ResolveID_eq, hel]
    simp [Nat.mod_one]
    decide

/-- Witness for C5: the tagged address of svc, resolved under draw 0. -/
theorem resolveID_result_format_witness :
    ResolveID svcResolver plainRequest 0 = some ("10.0.0.2:9090", none) ∧
    "10.0.0.2:9090" ≠ "" ∧
    ∃ cands a, svcResolver.appAddress.get "svc" = some cands ∧ a ∈ cands ∧
      "10.0.0.2:9090" = a.IPV4 ++ ":" ++ Itoa a.Port :=
  ⟨by decide, by decide,
    (resolveID_result_format svcResolver plainRequest 0).1 "10.0.0.2:9090" none
      (by decide) (by decide)⟩

/-- Witness for C1: svc lists a candidate tagged ns1, the request asks for ns1. -/
theorem resolveID_namespace_match_witness :
    svcResolver.appAddress.get "svc" = some [taggedAddress, untaggedAddress] ∧
    ns1Request.Data.get virtualNamespaceKey = some "ns1" ∧
    ∃ a ∈ [taggedAddress, untaggedAddress],
      a.ExtendedInfo.get virtualNamespaceKey = some "ns1" ∧
      ResolveID svcResolver ns1Request 5 = some (a.IPV4 ++ ":" ++ Itoa a.Port, none) :=
  ⟨by decide, by decide,
    resolveID_namespace_match svcResolver ns1Request 5 "ns1"
      [taggedAddress, untaggedAddress] (by decide) (by decide)
      ⟨taggedAddress, by simp, by decide⟩⟩

/-- Witness for C2: with an untagged candidate the default pool answers; with tagged candidates
    only the result is empty. -/
theorem resolveID_default_pool_witness :
    (∃ a ∈ (svcResolver.appAddress.get "svc").getD [],
      a.ExtendedInfo.get virtualNamespaceKey = none ∧
      ResolveID svcResolver plainRequest 3 = some (a.IPV4 ++ ":" ++ Itoa a.Port, none)) ∧
    ResolveID taggedOnlyResolver plainRequest 3 = some ("", none) :=
  ⟨(resolveID_default_pool svcResolver plainRequest 3 (by decide)).1
      ⟨untaggedAddress, by decide, by decide⟩,
   (resolveID_default_pool taggedOnlyResolver plainRequest 3 (by decide)).2 (by decide)⟩

/-- Witness for C3: svc has no candidate tagged ns2, so a request for ns2 resolves like the
    request with no attribute. -/
theorem resolveID_fallback_witness :
    ResolveID svcResolver ns2Request 4 = ResolveID svcResolver plainRequest 4 :=
  resolveID_fallback svcResolver ns2Request plainRequest 4 "ns2" rfl (by decide) (by decide)
    (by decide)

/-- Witness for C4: the table of svcResolver has no key other. -/
theorem resolveID_lookup_miss_witness :
    svcResolver.appAddress.get "other" = none ∧
    ResolveID svcResolver otherRequest 9 = some ("", none) :=
  ⟨by decide, resolveID_lookup_miss svcResolver otherRequest 9 (by decide)⟩

/-! ## Init -/

theorem Init_valid (s : Resolver) (m : Metadata)
    (hid : m.Instance.AppID ≠ "" ∧ m.Instance.Address ≠ "" ∧ 0 < m.Instance.DaprInternalPort) :
    Init s m =
      match resolveAppAddress (InitWithMetadata s.configure m).1 with
      | .error err => ({ s with configure := (InitWithMetadata s.configure m).1 }, some err)
      | .ok appAddrs =>
        ({ appAddress := appAddrs, configure := (InitWithMetadata s.configure m).1 }, none) := by
  obtain ⟨h1, h2, h3⟩ := hid
  have h3' : ¬ m.Instance.DaprInternalPort ≤ 0 := not_le.mpr h3
  unfold Init
  rw [if_neg h1, if_neg h2, if_neg h3']

theorem InitWithMetadata_valid (c : configStringMetadata) (m : Metadata) (cd : configData)
    (hid : m.Instance.AppID ≠ "" ∧ m.Instance.Address ≠ "" ∧ 0 < m.Instance.DaprInternalPort)
    (hcfg : parseConfig m.Configuration = .ok cd) :
    (InitWithMetadata c m).1.valueType = cd.ValueType ∧
    (InitWithMetadata c m).1.value = cd.Value := by
  obtain ⟨h1, h2, h3⟩ := hid
  have h3' : ¬ m.Instance.DaprInternalPort = 0 := by omega
  unfold InitWithMetadata
  simp [h1, h2, h3', hcfg]

theorem resolveAppAddress_inline (c : configStringMetadata)
    (hty : c.valueType = JSON_STRING_VALUE ∨ c.valueType = YAML_STRING_VALUE) :
    resolveAppAddress c = parseAddressConfig c.value := by
  unfold resolveAppAddress
  rcases hty with h | h
  · rw [if_pos h]
  · rw [if_pos h]; split <;> rfl

/-- C6: Init returns an error when the appID is empty, the address is empty or the port is not
    greater than 0, and the resolver is then exactly as before the call; with a valid identity
    every error Init returns is the error of resolveAppAddress on the stored configuration, not an
    identity error. -/
theorem init_identity_validation (s : Resolver) (m : Metadata) :
    ((m.Instance.AppID = "" ∨ m.Instance.Address = "" ∨ m.Instance.DaprInternalPort ≤ 0) →
      (Init s m).2 ≠ none ∧ (Init s m).1 = s) ∧
    ((m.Instance.AppID ≠ "" ∧ m.Instance.Address ≠ "" ∧ 0 < m.Instance.DaprInternalPort) →
      ∀ err, (Init s m).2 = some err →
        resolveAppAddress (InitWithMetadata s.configure m).1 = .error err) := by
  constructor
  · intro h
    unfold Init
    by_cases h1 : m.Instance.AppID = ""
    · simp [h1]
    · by_cases h2 : m.Instance.Address = ""
      · simp [h1, h2]
      · have h3 : m.Instance.DaprInternalPort ≤ 0 := by
          rcases h with h | h | h
          · exact absurd h h1
          · exact absurd h h2
          · exact h
        simp [h1, h2, h3]
  · intro hid err herr
    rw [Init_valid s m hid] at herr
    cases hr : resolveAppAddress (InitWithMetadata s.configure m).1 with
    | error e =>
      rw [hr] at herr
      simp only [Option.some.injEq] at herr
      rw [herr]
    | ok t =>
      rw [hr] at herr
      simp at herr

/-- Witness for C6: an empty appID, an empty address and a negative port are each rejected with
    the resolver unchanged; with a valid identity and a bad port string the error is the one of
    resolveAppAddress. -/
theorem init_identity_validation_witness :
    ((Init svcResolver noNameMetadata).2 ≠ none ∧ (Init svcResolver noNameMetadata).1 = svcResolver) ∧
    ((Init svcResolver noAddressMetadata).2 ≠ none ∧
      (Init svcResolver noAddressMetadata).1 = svcResolver) ∧
    ((Init svcResolver negativePortMetadata).2 ≠ none ∧
      (Init svcResolver negativePortMetadata).1 = svcResolver) ∧
    resolveAppAddress (InitWithMetadata svcResolver.configure badPortMetadata).1
      = .error ⟨"error deserializing to configSpec: json: invalid use of ,string struct tag"⟩ :=
  ⟨(init_identity_validation svcResolver noNameMetadata).1 (Or.inl rfl),
   (init_identity_validation svcResolver noAddressMetadata).1 (Or.inr (Or.inl rfl)),
   (init_identity_validation svcResolver negativePortMetadata).1
      (Or.inr (Or.inr (by decide))),
   (init_identity_validation svcResolver badPortMetadata).2
      ⟨by decide, by decide, by decide⟩ _ (by decide)⟩

/-- C7: for a valid identity and an inline configuration (jsonStringValue or yamlStringValue)
    whose value parseAddressConfig rejects, Init returns that error and leaves the address table
    as it was; on a freshly constructed resolver every later ResolveID returns the empty
    string. -/
theorem init_malformed_config (s : Resolver) (m : Metadata) (cd : configData) (e : GoError)
    (hid : m.Instance.AppID ≠ "" ∧ m.Instance.Address ≠ "" ∧ 0 < m.Instance.DaprInternalPort)
    (hcfg : parseConfig m.Configuration = .ok cd)
    (hty : cd.ValueType = JSON_STRING_VALUE ∨ cd.ValueType = YAML_STRING_VALUE)
    (hbad : parseAddressConfig cd.Value = .error e) :
    (Init s m).2 = some e ∧ (Init s m).1.appAddress = s.appAddress ∧
    ∀ req r, ResolveID (Init NewResolver m).1 req r = some ("", none) := by
  have key : ∀ s0 : Resolver,
      Init s0 m = ({ s0 with configure := (InitWithMetadata s0.configure m).1 }, some e) := by
    intro s0
    obtain ⟨hv, hval⟩ := InitWithMetadata_valid s0.configure m cd hid hcfg
    rw [Init_valid s0 m hid, resolveAppAddress_inline _ (by rw [hv]; exact hty), hval, hbad]
  refine ⟨by rw [key s], by rw [key s], ?_⟩
  intro req r
  apply ResolveID_of_absent
  rw [key NewResolver]
  rfl

/-- Witness for C7: the port string "abc" is rejected, Init on svcResolver fails and keeps its
    table, and the fresh resolver keeps answering with the empty string. -/
theorem init_malformed_config_witness :
    parseAddressConfig badPortValue
      = .error ⟨"error deserializing to configSpec: json: invalid use of ,string struct tag"⟩ ∧
    (Init svcResolver badPortMetadata).2
      = some ⟨"error deserializing to configSpec: json: invalid use of ,string struct tag"⟩ ∧
    (Init svcResolver badPortMetadata).1.appAddress = svcResolver.appAddress ∧
    ∀ req r, ResolveID (Init NewResolver badPortMetadata).1 req r = some ("", none) :=
  ⟨rfl,
    init_malformed_config svcResolver badPortMetadata ⟨"yamlStringValue", badPortValue⟩ _
      ⟨by decide, by decide, by decide⟩ rfl (Or.inr rfl) rfl⟩

/-- C8, the code at the failing input: the configuration record of undecodableMetadata has a
    number as valueType, parseConfig rejects it and InitWithMetadata returns that error, yet Init
    on a fresh resolver returns nil and stores the nil table. -/
theorem init_drops_config_error :
    parseConfig undecodableMetadata.Configuration
      = .error ⟨"error deserializing to configSpec: json: cannot unmarshal value into Go value"⟩ ∧
    (InitWithMetadata NewResolver.configure undecodableMetadata).2
      = some ⟨"error deserializing to configSpec: json: cannot unmarshal value into Go value"⟩ ∧
    (Init NewResolver undecodableMetadata).2 = none ∧
    (Init NewResolver undecodableMetadata).1.appAddress = none := by
  refine ⟨?_, ?_, ?_, ?_⟩ <;> rfl

/-- C9: for a valid identity and an inline configuration (jsonStringValue or yamlStringValue)
    whose value decodes to the table T, Init returns nil and stores T, and afterwards ResolveID
    returns a non-empty string for every service id that has an address without virtual-namespace
    in T, whatever the attributes and the draw. -/
theorem init_success_availability (s : Resolver) (m : Metadata) (cd : configData)
    (T : GoMap (List address))
    (hid : m.Instance.AppID ≠ "" ∧ m.Instance.Address ≠ "" ∧ 0 < m.Instance.DaprInternalPort)
    (hcfg : parseConfig m.Configuration = .ok cd)
    (hty : cd.ValueType = JSON_STRING_VALUE ∨ cd.ValueType = YAML_STRING_VALUE)
    (hok : parseAddressConfig cd.Value = .ok T) :
    (Init s m).2 = none ∧ (Init s m).1.appAddress = T ∧
    ∀ (req : ResolveRequest) (r : Nat) (cands : List address),
      GoMap.get T req.ID = some cands →
      (∃ a ∈ cands, a.ExtendedInfo.get virtualNamespaceKey = none) →
      ∃ addr, ResolveID (Init s m).1 req r = some (addr, none) ∧ addr ≠ "" := by
  have key : Init s m
      = ({ appAddress := T, configure := (InitWithMetadata s.configure m).1 }, none) := by
    obtain ⟨hv, hval⟩ := InitWithMetadata_valid s.configure m cd hid hcfg
    rw [Init_valid s m hid, resolveAppAddress_inline _ (by rw [hv]; exact hty), hval, hok]
  refine ⟨by rw [key], by rw [key], ?_⟩
  intro req r cands hc hex
  rw [key]
  obtain ⟨b, hb, hbn⟩ := hex
  have hne : eligibleSet ⟨T, (InitWithMetadata s.configure m).1⟩ req ≠ [] := by
    unfold eligibleSet
    simp only [hc, Option.getD_some]
    split
    · exact List.ne_nil_of_mem ((mem_noneVirtualNamespace _ _).mpr ⟨hb, hbn⟩)
    · next hlen => exact fun h0 => hlen (by rw [h0]; rfl)
  obtain ⟨a, _, hres⟩ := ResolveID_pick _ req r hne
  exact ⟨_, hres, format_ne_empty a⟩

/-- Witness for C9: the example configuration of the specification initialises the resolver, and
    svcA then resolves to a non-empty string. -/
theorem init_success_availability_witness :
    (Init NewResolver svcAMetadata).2 = none ∧
    (Init NewResolver svcAMetadata).1.appAddress
      = some [("svcA", [⟨"10.0.0.1", "", 8080, some []⟩])] ∧
    ∃ addr, ResolveID (Init NewResolver svcAMetadata).1 ⟨"svcA", none⟩ 11 = some (addr, none) ∧
      addr ≠ "" :=
  have h := init_success_availability NewResolver svcAMetadata ⟨"jsonStringValue", svcAValue⟩
    (some [("svcA", [⟨"10.0.0.1", "", 8080, some []⟩])]) ⟨by decide, by decide, by decide⟩ rfl
    (Or.inl rfl) rfl
  ⟨h.1, h.2.1, h.2.2 ⟨"svcA", none⟩ 11 [⟨"10.0.0.1", "", 8080, some []⟩] rfl
    ⟨_, List.mem_singleton.mpr rfl, rfl⟩⟩

/-- C10, the claim fails: the configuration svc: [ { ipv4: 10.0.0.1 } ], whose only address
    entry has no port field, is ingested without error and the table lists the entry with
    port 0. -/
theorem parseAddressConfig_missing_port_accepted :
    parseAddressConfig missingPortValue = .ok (some [("svc", [⟨"10.0.0.1", "", 0, none⟩])]) := by
  rfl


theorem NormalizeStringEntries_cons (k : String) (v : GoAny) (rest : List (String × GoAny)) :
    NormalizeStringEntries ((k, v) :: rest) =
      match Normalize v with
      | .error e => .error e
      | .ok v2 =>
        match NormalizeStringEntries rest with
        | .error e => .error e
        | .ok r2 => .ok ((k, v2) :: r2) := by
  rw [NormalizeStringEntries]
  cases Normalize v with
  | error e => rfl
  | ok v2 => cases NormalizeStringEntries rest <;> rfl

theorem NormalizeElems_cons (v : GoAny) (rest : List GoAny) :
    NormalizeElems (v :: rest) =
      match Normalize v with
      | .error e => .error e
      | .ok v2 =>
        match NormalizeElems rest with
        | .error e => .error e
        | .ok r2 => .ok (v2 :: r2) := by
  rw [NormalizeElems]
  cases Normalize v with
  | error e => rfl
  | ok v2 => cases NormalizeElems rest <;> rfl

theorem NormalizeStringEntries_append (xs ys : List (String × GoAny)) :
    NormalizeStringEntries (xs ++ ys) =
      match NormalizeStringEntries xs with
      | .error e => .error e
      | .ok a =>
        match NormalizeStringEntries ys with
        | .error e => .error e
        | .ok b => .ok (a ++ b) := by
  induction xs with
  | nil =>
    rw [List.nil_append]
    cases NormalizeStringEntries ys <;> rfl
  | cons kv rest ih =>
    obtain ⟨k, v⟩ := kv
    rw [List.cons_append, NormalizeStringEntries_cons, NormalizeStringEntries_cons, ih]
    cases Normalize v with
    | error e => rfl
    | ok v2 =>
      cases NormalizeStringEntries rest with
      | error e => rfl
      | ok r2 => cases NormalizeStringEntries ys <;> rfl

theorem NormalizeElems_append (xs ys : List GoAny) :
    NormalizeElems (xs ++ ys) =
      match NormalizeElems xs with
      | .error e => .error e
      | .ok a =>
        match NormalizeElems ys with
        | .error e => .error e
        | .ok b => .ok (a ++ b) := by
  induction xs with
  | nil =>
    rw [List.nil_append]
    cases NormalizeElems ys <;> rfl
  | cons v rest ih =>
    rw [List.cons_append, NormalizeElems_cons, NormalizeElems_cons, ih]
    cases Normalize v with
    | error e => rfl
    | ok v2 =>
      cases NormalizeElems rest with
      | error e => rfl
      | ok r2 => cases NormalizeElems ys <;> rfl

theorem Normalize_mapString (kvs : List (String × GoAny)) :
    Normalize (.mapString kvs) =
      match NormalizeStringEntries kvs with
      | .error e => .error e
      | .ok m2 => .ok (.mapString m2) := by
  rw [Normalize]
  cases NormalizeStringEntries kvs <;> rfl

theorem Normalize_slice (xs : List GoAny) :
    Normalize (.slice xs) =
      match NormalizeElems xs with
      | .error e => .error e
      | .ok ys => .ok (.slice ys) := by
  rw [Normalize]
  cases NormalizeElems xs <;> rfl

theorem MarshalEntries_cons (k : String) (v : GoAny) (rest : List (String × GoAny)) :
    MarshalEntries ((k, v) :: rest) =
      match Marshal v with
      | .error e => .error e
      | .ok j =>
        match MarshalEntries rest with
        | .error e => .error e
        | .ok r2 => .ok ((k, j) :: r2) := by
  rw [MarshalEntries]
  cases Marshal v with
  | error e => rfl
  | ok j => cases MarshalEntries rest <;> rfl

theorem MarshalElems_cons (v : GoAny) (rest : List GoAny) :
    MarshalElems (v :: rest) =
      match Marshal v with
      | .error e => .error e
      | .ok j =>
        match MarshalElems rest with
        | .error e => .error e
        | .ok r2 => .ok (j :: r2) := by
  rw [MarshalElems]
  cases Marshal v with
  | error e => rfl
  | ok j => cases MarshalElems rest <;> rfl

theorem MarshalEntries_append (xs ys : List (String × GoAny)) :
    MarshalEntries (xs ++ ys) =
      match MarshalEntries xs with
      | .error e => .error e
      | .ok a =>
        match MarshalEntries ys with
        | .error e => .error e
        | .ok b => .ok (a ++ b) := by
  induction xs with
  | nil =>
    rw [List.nil_append]
    cases MarshalEntries ys <;> rfl
  | cons kv rest ih =>
    obtain ⟨k, v⟩ := kv
    rw [List.cons_append, MarshalEntries_cons, MarshalEntries_cons, ih]
    cases Marshal v with
    | error e => rfl
    | ok j =>
      cases MarshalEntries rest with
      | error e => rfl
      | ok r2 => cases MarshalEntries ys <;> rfl

theorem MarshalElems_append (xs ys : List GoAny) :
    MarshalElems (xs ++ ys) =
      match MarshalElems xs with
      | .error e => .error e
      | .ok a =>
        match MarshalElems ys with
        | .error e => .error e
        | .ok b => .ok (a ++ b) := by
  induction xs with
  | nil =>
    rw [List.nil_append]
    cases MarshalElems ys <;> rfl
  | cons v rest ih =>
    rw [List.cons_append, MarshalElems_cons, MarshalElems_cons, ih]
    cases Marshal v with
    | error e => rfl
    | ok j =>
      cases MarshalElems rest with
      | error e => rfl
      | ok r2 => cases MarshalElems ys <;> rfl

theorem Marshal_mapString (kvs : List (String × GoAny)) :
    Marshal (.mapString kvs) =
      match MarshalEntries kvs with
      | .error e => .error e
      | .ok fields => .ok (.object fields) := by
  rw [Marshal]
  cases MarshalEntries kvs <;> rfl

theorem Marshal_slice (xs : List GoAny) :
    Marshal (.slice xs) =
      match MarshalElems xs with
      | .error e => .error e
      | .ok ys => .ok (.array ys) := by
  rw [Marshal]
  cases MarshalElems xs <;> rfl

theorem NormalizeStringEntries_keys (xs ys : List (String × GoAny))
    (h : NormalizeStringEntries xs = .ok ys) : ys.map Prod.fst = xs.map Prod.fst := by
  induction xs generalizing ys with
  | nil =>
    have : ys = [] := by
      have h2 : (Except.ok [] : Except GoError (List (String × GoAny))) = .ok ys := h
      injection h2 with h3
      exact h3.symm
    rw [this]
  | cons kv rest ih =>
    obtain ⟨k, v⟩ := kv
    rw [NormalizeStringEntries_cons] at h
    cases hv : Normalize v with
    | error e => rw [hv] at h; cases h
    | ok v2 =>
      rw [hv] at h
      cases hr : NormalizeStringEntries rest with
      | error e => rw [hr] at h; cases h
      | ok r2 =>
        rw [hr] at h
        injection h with h3
        rw [← h3, List.map_cons, List.map_cons, ih r2 hr]

theorem MarshalEntries_keys (xs : List (String × GoAny)) (ys : List (String × JSON))
    (h : MarshalEntries xs = .ok ys) : ys.map Prod.fst = xs.map Prod.fst := by
  induction xs generalizing ys with
  | nil =>
    have : ys = [] := by
      have h2 : (Except.ok [] : Except GoError (List (String × JSON))) = .ok ys := h
      injection h2 with h3
      exact h3.symm
    rw [this]
    rfl
  | cons kv rest ih =>
    obtain ⟨k, v⟩ := kv
    rw [MarshalEntries_cons] at h
    cases hv : Marshal v with
    | error e => rw [hv] at h; cases h
    | ok j =>
      rw [hv] at h
      cases hr : MarshalEntries rest with
      | error e => rw [hr] at h; cases h
      | ok r2 =>
        rw [hr] at h
        injection h with h3
        rw [← h3, List.map_cons, List.map_cons, ih r2 hr]

theorem Normalize_configWith (pre post : List (String × GoAny)) (svc : String)
    (before after : List GoAny) (fields : List (String × GoAny)) :
    Normalize (configWith pre post svc before after (.mapString fields)) =
      match NormalizeStringEntries pre with
      | .error e => .error e
      | .ok p =>
        match NormalizeElems before with
        | .error e => .error e
        | .ok b =>
          match NormalizeStringEntries fields with
          | .error e => .error e
          | .ok f =>
            match NormalizeElems after with
            | .error e => .error e
            | .ok a =>
              match NormalizeStringEntries post with
              | .error e => .error e
              | .ok q => .ok (configWith p q svc b a (.mapString f)) := by
  unfold configWith
  rw [Normalize_mapString, NormalizeStringEntries_append, NormalizeStringEntries_cons,
    Normalize_slice, NormalizeElems_append, NormalizeElems_cons, Normalize_mapString]
  cases NormalizeStringEntries pre with
  | error e => rfl
  | ok p =>
    cases NormalizeElems before with
    | error e => rfl
    | ok b =>
      cases NormalizeStringEntries fields with
      | error e => rfl
      | ok f =>
        cases NormalizeElems after with
        | error e => rfl
        | ok a =>
          cases NormalizeStringEntries post with
          | error e => rfl
          | ok q => rfl

theorem Marshal_configWith (pre post : List (String × GoAny)) (svc : String)
    (before after : List GoAny) (fields : List (String × GoAny)) :
    Marshal (configWith pre post svc before after (.mapString fields)) =
      match MarshalEntries pre with
      | .error e => .error e
      | .ok p =>
        match MarshalElems before with
        | .error e => .error e
        | .ok b =>
          match MarshalEntries fields with
          | .error e => .error e
          | .ok f =>
            match MarshalElems after with
            | .error e => .error e
            | .ok a =>
              match MarshalEntries post with
              | .error e => .error e
              | .ok q => .ok (documentWith p q svc b a (.object f)) := by
  unfold configWith
  rw [Marshal_mapString, MarshalEntries_append, MarshalEntries_cons,
    Marshal_slice, MarshalElems_append, MarshalElems_cons, Marshal_mapString]
  cases MarshalEntries pre with
  | error e => rfl
  | ok p =>
    cases MarshalElems before with
    | error e => rfl
    | ok b =>
      cases MarshalEntries fields with
      | error e => rfl
      | ok f =>
        cases MarshalElems after with
        | error e => rfl
        | ok a =>
          cases MarshalEntries post with
          | error e => rfl
          | ok q => rfl

theorem NormalizeStringEntries_snoc_port (fields : List (String × GoAny)) :
    NormalizeStringEntries (fields ++ [("port", .string "0")]) =
      match NormalizeStringEntries fields with
      | .error e => .error e
      | .ok f => .ok (f ++ [("port", .string "0")]) := by
  rw [NormalizeStringEntries_append]
  cases NormalizeStringEntries fields <;> rfl

theorem MarshalEntries_snoc_port (fields : List (String × GoAny)) :
    MarshalEntries (fields ++ [("port", .string "0")]) =
      match MarshalEntries fields with
      | .error e => .error e
      | .ok f => .ok (f ++ [("port", .string "0")]) := by
  rw [MarshalEntries_append]
  cases MarshalEntries fields <;> rfl

theorem unmarshalAddressField_port (a a' : address) (kv : String × JSON)
    (hk : foldName kv.1 ≠ foldName "port") (h : unmarshalAddressField a kv = .ok a') :
    a'.Port = a.Port := by
  unfold unmarshalAddressField at h
  rw [if_neg hk] at h
  split at h
  · cases hv : unmarshalString a.IPV4 kv.2 with
    | error e => rw [hv] at h; cases h
    | ok v => rw [hv] at h; injection h with h; rw [← h]
  · split at h
    · cases hv : unmarshalString a.IPV6 kv.2 with
      | error e => rw [hv] at h; cases h
      | ok v => rw [hv] at h; injection h with h; rw [← h]
    · split at h
      · cases hv : unmarshalStringMap a.ExtendedInfo kv.2 with
        | error e => rw [hv] at h; cases h
        | ok v => rw [hv] at h; injection h with h; rw [← h]
      · injection h with h; rw [← h]

theorem foldlM_unmarshalAddressField_port (fs : List (String × JSON)) (a a' : address)
    (hk : ∀ kv ∈ fs, foldName kv.1 ≠ foldName "port")
    (h : fs.foldlM unmarshalAddressField a = .ok a') : a'.Port = a.Port := by
  induction fs generalizing a with
  | nil =>
    have h2 : (Except.ok a : Except GoError address) = .ok a' := h
    injection h2 with h3
    rw [h3]
  | cons kv rest ih =>
    rw [List.foldlM_cons] at h
    cases hv : unmarshalAddressField a kv with
    | error e => rw [hv] at h; cases h
    | ok a1 =>
      rw [hv] at h
      have h1 := unmarshalAddressField_port a a1 kv (hk kv (List.mem_cons_self _ _)) hv
      have h2 := ih a1 (fun kv' hm => hk kv' (List.mem_cons_of_mem _ hm)) h
      rw [h2, h1]

theorem unmarshalAddressField_port_zero (a : address) :
    unmarshalAddressField a ("port", .string "0") = .ok { a with Port := 0 } := by
  rfl

theorem unmarshalAddress_snoc_port (fs : List (String × JSON))
    (hk : ∀ kv ∈ fs, foldName kv.1 ≠ foldName "port") :
    unmarshalAddress address.zero (.object (fs ++ [("port", .string "0")]))
      = unmarshalAddress address.zero (.object fs) := by
  unfold unmarshalAddress
  simp only [List.foldlM_append]
  cases h : fs.foldlM unmarshalAddressField address.zero with
  | error e => rfl
  | ok a =>
    have hp : a.Port = 0 := foldlM_unmarshalAddressField_port fs address.zero a hk h
    show unmarshalAddressField a ("port", .string "0") >>= pure = Except.ok a
    rw [unmarshalAddressField_port_zero]
    show Except.ok { a with Port := 0 } = Except.ok a
    rw [← hp]

theorem unmarshalTable_snoc_port (p q : List (String × JSON)) (svc : String) (b a : List JSON)
    (fs : List (String × JSON)) (hk : ∀ kv ∈ fs, foldName kv.1 ≠ foldName "port") :
    unmarshalTable (some []) (documentWith p q svc b a (.object (fs ++ [("port", .string "0")])))
      = unmarshalTable (some []) (documentWith p q svc b a (.object fs)) := by
  unfold unmarshalTable documentWith
  simp only [List.foldlM_append, List.foldlM_cons, unmarshalAddressSlice, List.mapM_append,
    List.mapM_cons, unmarshalAddress_snoc_port fs hk]

/-- C10, amended: a missing port is not rejected.  In a configuration in which an address entry
    has no port field (no key that names the field port, in any letter case), parseAddressConfig
    returns exactly what it returns when that entry carries port "0": the same error, or the same
    table, in which the entry has port 0. -/
theorem parseAddressConfig_missing_port_is_zero (pre post : List (String × GoAny)) (svc : String)
    (before after : List GoAny) (fields : List (String × GoAny))
    (hk : ∀ kv ∈ fields, foldName kv.1 ≠ foldName "port") :
    parseAddressConfig (configWith pre post svc before after (.mapString fields))
      = parseAddressConfig (configWith pre post svc before after
          (.mapString (fields ++ [("port", .string "0")]))) := by
  unfold parseAddressConfig
  rw [Normalize_configWith, Normalize_configWith, NormalizeStringEntries_snoc_port]
  cases NormalizeStringEntries pre with
  | error e => rfl
  | ok p =>
    cases NormalizeElems before with
    | error e => rfl
    | ok b =>
      cases hf : NormalizeStringEntries fields with
      | error e => rfl
      | ok f =>
        cases NormalizeElems after with
        | error e => rfl
        | ok a =>
          cases NormalizeStringEntries post with
          | error e => rfl
          | ok q =>
            show (match Marshal (configWith p q svc b a (.mapString f)) with
              | .error err => Except.error (fmt_Errorf_w "error serializing to json: " err)
              | .ok data =>
                match unmarshalTable (some []) data with
                | .error err => Except.error (fmt_Errorf_w "error deserializing to configSpec: " err)
                | .ok configuration => Except.ok configuration)
              = (match Marshal (configWith p q svc b a
                    (.mapString (f ++ [("port", .string "0")]))) with
              | .error err => Except.error (fmt_Errorf_w "error serializing to json: " err)
              | .ok data =>
                match unmarshalTable (some []) data with
                | .error err => Except.error (fmt_Errorf_w "error deserializing to configSpec: " err)
                | .ok configuration => Except.ok configuration)
            rw [Marshal_configWith, Marshal_configWith, MarshalEntries_snoc_port]
            cases MarshalEntries p with
            | error e => rfl
            | ok p' =>
              cases MarshalElems b with
              | error e => rfl
              | ok b' =>
                cases hf' : MarshalEntries f with
                | error e => rfl
                | ok f' =>
                  cases MarshalElems a with
                  | error e => rfl
                  | ok a' =>
                    cases MarshalEntries q with
                    | error e => rfl
                    | ok q' =>
                      have hkeys : ∀ kv ∈ f', foldName kv.1 ≠ foldName "port" := by
                        intro kv hkv
                        have h1 : kv.1 ∈ f'.map Prod.fst := List.mem_map_of_mem _ hkv
                        rw [MarshalEntries_keys f f' hf',
                          NormalizeStringEntries_keys fields f hf] at h1
                        obtain ⟨kv0, hkv0, he⟩ := List.mem_map.mp h1
                        rw [← he]
                        exact hk kv0 hkv0
                      show (match unmarshalTable (some []) (documentWith p' q' svc b' a' (.object f')) with
                        | .error err =>
                          Except.error (fmt_Errorf_w "error deserializing to configSpec: " err)
                        | .ok configuration => Except.ok configuration)
                        = (match unmarshalTable (some [])
                            (documentWith p' q' svc b' a'
                              (.object (f' ++ [("port", .string "0")]))) with
                        | .error err =>
                          Except.error (fmt_Errorf_w "error deserializing to configSpec: " err)
                        | .ok configuration => Except.ok configuration)
                      rw [unmarshalTable_snoc_port p' q' svc b' a' f' hkeys]

/-- Witness for C10: the entry ipv4: 10.0.0.1 of svc has no port field, and the configuration is
    ingested like the one with port "0", as the table with port 0. -/
theorem parseAddressConfig_missing_port_is_zero_witness :
    (∀ kv ∈ [(("ipv4", .string "10.0.0.1") : String × GoAny)],
      foldName kv.1 ≠ foldName "port") ∧
    parseAddressConfig (configWith [] [] "svc" [] [] (.mapString [("ipv4", .string "10.0.0.1")]))
      = parseAddressConfig (configWith [] [] "svc" [] []
          (.mapString ([("ipv4", .string "10.0.0.1")] ++ [("port", .string "0")]))) ∧
    parseAddressConfig (configWith [] [] "svc" [] []
          (.mapString ([("ipv4", .string "10.0.0.1")] ++ [("port", .string "0")])))
      = .ok (some [("svc", [⟨"10.0.0.1", "", 0, none⟩])]) :=
  ⟨by decide,
    parseAddressConfig_missing_port_is_zero [] [] "svc" [] [] [("ipv4", .string "10.0.0.1")]
      (by decide),
    rfl⟩

/-! ## Lifecycle -/

theorem Init_error_table (s s' : Resolver) (m : Metadata) (e : GoError)
    (h : Init s m = (s', some e)) : s'.appAddress = s.appAddress := by
  by_cases hid : m.Instance.AppID ≠ "" ∧ m.Instance.Address ≠ "" ∧ 0 < m.Instance.DaprInternalPort
  · rw [Init_valid s m hid] at h
    cases hr : resolveAppAddress (InitWithMetadata s.configure m).1 with
    | error err =>
      rw [hr] at h
      injection h with h1 _
      rw [← h1]
    | ok t =>
      rw [hr] at h
      injection h with _ h2
      cases h2
  · have hbad : m.Instance.AppID = "" ∨ m.Instance.Address = "" ∨
        m.Instance.DaprInternalPort ≤ 0 := by
      by_cases h1 : m.Instance.AppID = ""
      · exact Or.inl h1
      · by_cases h2 : m.Instance.Address = ""
        · exact Or.inr (Or.inl h2)
        · refine Or.inr (Or.inr (not_lt.mp fun h3 => hid ⟨h1, h2, h3⟩))
    have hs : (Init s m).1 = s := by
      unfold Init
      by_cases h1 : m.Instance.AppID = ""
      · simp [h1]
      · by_cases h2 : m.Instance.Address = ""
        · simp [h1, h2]
        · have h3 : m.Instance.DaprInternalPort ≤ 0 := by
            rcases hbad with hb | hb | hb
            · exact absurd hb h1
            · exact absurd hb h2
            · exact hb
          simp [h1, h2, h3]
    rw [h] at hs
    rw [← hs]

theorem failedInits_table (ms : List Metadata) (s s' : Resolver)
    (h : failedInits s ms = some s') : s'.appAddress = s.appAddress := by
  induction ms generalizing s with
  | nil =>
    have h2 : some s = some s' := h
    injection h2 with h3
    rw [h3]
  | cons m rest ih =>
    unfold failedInits at h
    rcases hi : Init s m with ⟨s1, _ | e⟩
    · rw [hi] at h
      cases h
    · rw [hi] at h
      rw [ih s1 h, Init_error_table s s1 m e hi]

/-- C11, the claim fails: Close keeps the address table, so after Close the resolver svcResolver
    still resolves svc to its untagged address. -/
theorem resolveID_after_close_not_empty :
    ResolveID (Close svcResolver).1 plainRequest 0 = some ("10.0.0.2:9090", none) := by
  decide

/-- C11, amended: Close leaves the resolver as it is, so after Close every request resolves,
    under every draw, to what it resolved to before Close (the empty string exactly where it was
    empty before). -/
theorem close_keeps_resolution (s : Resolver) (req : ResolveRequest) (r : Nat) :
    (Close s).1 = s ∧ ResolveID (Close s).1 req r = ResolveID s req r :=
  ⟨rfl, rfl⟩

/-- C12: on the resolver returned by NewResolver, after any run of Init calls that all returned
    an error (also the empty run), ResolveID returns the empty string and a nil error for every
    request and every draw. -/
theorem resolveID_before_init (ms : List Metadata) (s : Resolver)
    (h : failedInits NewResolver ms = some s) (req : ResolveRequest) (r : Nat) :
    ResolveID s req r = some ("", none) := by
  apply ResolveID_of_absent
  rw [failedInits_table ms NewResolver s h]
  rfl

/-- Witness for C12: an Init with an empty appID and an Init with a bad port string both fail, and
    the resolver they leave still answers with the empty string. -/
theorem resolveID_before_init_witness :
    failedInits NewResolver [noNameMetadata, badPortMetadata]
      = some (Init (Init NewResolver noNameMetadata).1 badPortMetadata).1 ∧
    ResolveID (Init (Init NewResolver noNameMetadata).1 badPortMetadata).1 ns1Request 6
      = some ("", none) :=
  ⟨rfl,
    resolveID_before_init [noNameMetadata, badPortMetadata]
      (Init (Init NewResolver noNameMetadata).1 badPortMetadata).1 rfl ns1Request 6⟩

/-- C14: ResolveID never panics: for every resolver (nil table, empty candidate list and nil
    extendedInfo included), every request (nil attributes included) and every draw it returns a
    string with a nil error, and the index it reads is within the eligible set whenever that set
    is not empty. -/
theorem resolveID_no_panic (s : Resolver) (req : ResolveRequest) (r : Nat) :
    (∃ addr, ResolveID s req r = some (addr, none)) ∧
    (eligibleSet s req = [] ∨ r % (eligibleSet s req).length < (eligibleSet s req).length) := by
  by_cases hel : eligibleSet s req = []
  · exact ⟨⟨"", ResolveID_nil s req r hel⟩, Or.inl hel⟩
  · obtain ⟨a, _, hres⟩ := ResolveID_pick s req r hel
    exact ⟨⟨_, hres⟩, Or.inr (Nat.mod_lt _ (List.length_pos.mpr hel))⟩

/-- C15: Close returns a nil error, and a second Close leaves the resolver in the same state and
    returns the same result as the first. -/
theorem close_idempotent (s : Resolver) :
    (Close s).2 = none ∧ Close (Close s).1 = Close s :=
  ⟨rfl, rfl⟩

/-! ## The draw -/

theorem count_residue (b n i : Nat) (hn : 0 < n) (hi : i < n) :
    Nat.count (fun r => r % n = i) b = b / n + if i < b % n then 1 else 0 := by
  have h := Nat.count_modEq_card b hn i
  rw [Nat.mod_eq_of_lt hi] at h
  rw [← h, Nat.count_eq_card_filter_range, Nat.count_eq_card_filter_range]
  refine congrArg Finset.card (Finset.filter_congr ?_)
  intro x _
  simp [Nat.ModEq, Nat.mod_eq_of_lt hi]

theorem drawCount_eq (n i : Nat) (hn : 0 < n) (hi : i < n) :
    drawCount n i = 2 ^ 63 / n + if i < 2 ^ 63 % n then 1 else 0 :=
  count_residue (2 ^ 63) n i hn hi

/-- C13, the claim fails: with three eligible addresses the index 0 is chosen by one more of the
    2^63 values of the draw than the index 2. -/
theorem resolveID_pick_not_uniform :
    (eligibleSet threeResolver plainRequest).length = 3 ∧ drawCount 3 0 = drawCount 3 2 + 1 := by
  refine ⟨by decide, ?_⟩
  rw [drawCount_eq 3 0 (by norm_num) (by norm_num), drawCount_eq 3 2 (by norm_num) (by norm_num)]
  norm_num

/-- C13, amended: for a non-empty eligible set of n addresses the chosen index is r mod n; of the
    2^63 values of the draw, index i is chosen by 2^63 / n of them, plus one when i < 2^63 mod n.
    Two indices therefore differ by at most one in their counts, and all counts are equal exactly
    when n divides 2^63. -/
theorem resolveID_pick_distribution (s : Resolver) (req : ResolveRequest)
    (hne : eligibleSet s req ≠ []) :
    (∀ r, ∃ a, (eligibleSet s req)[r % (eligibleSet s req).length]? = some a ∧
      ResolveID s req r = some (a.IPV4 ++ ":" ++ Itoa a.Port, none)) ∧
    (∀ i, i < (eligibleSet s req).length →
      drawCount (eligibleSet s req).length i
        = 2 ^ 63 / (eligibleSet s req).length
          + if i < 2 ^ 63 % (eligibleSet s req).length then 1 else 0) ∧
    (∀ i j, i < (eligibleSet s req).length → j < (eligibleSet s req).length →
      drawCount (eligibleSet s req).length i ≤ drawCount (eligibleSet s req).length j + 1) ∧
    ((∀ i j, i < (eligibleSet s req).length → j < (eligibleSet s req).length →
      drawCount (eligibleSet s req).length i = drawCount (eligibleSet s req).length j)
      ↔ (eligibleSet s req).length ∣ 2 ^ 63) := by
  have hpos : 0 < (eligibleSet s req).length := List.length_pos.mpr hne
  generalize hn : (eligibleSet s req).length = n at hpos
  refine ⟨?_, ?_, ?_, ?_⟩
  · intro r
    have hlt : r % (eligibleSet s req).length < (eligibleSet s req).length :=
      Nat.mod_lt _ (hn ▸ hpos)
    refine ⟨(eligibleSet s req)[r % (eligibleSet s req).length], ?_, ?_⟩
    · rw [← hn, List.getElem?_eq_getElem hlt]
    · rw [ResolveID_eq, if_pos (hn ▸ hpos), List.getElem?_eq_getElem hlt]
  · intro i hi
    exact drawCount_eq n i hpos hi
  · intro i j hi hj
    rw [drawCount_eq n i hpos hi, drawCount_eq n j hpos hj]
    split <;> split <;> omega
  · constructor
    · intro hall
      have h0 := hall 0 (n - 1) hpos (by omega)
      rw [drawCount_eq n 0 hpos hpos, drawCount_eq n (n - 1) hpos (by omega)] at h0
      have hm : 2 ^ 63 % n < n := Nat.mod_lt _ hpos
      have hlast : ¬ n - 1 < 2 ^ 63 % n := by omega
      rw [if_neg hlast] at h0
      by_cases hz : 0 < 2 ^ 63 % n
      · rw [if_pos hz] at h0
        omega
      · exact Nat.dvd_of_mod_eq_zero (by omega)
    · intro hdvd i j hi hj
      have hz : 2 ^ 63 % n = 0 := Nat.mod_eq_zero_of_dvd hdvd
      rw [drawCount_eq n i hpos hi, drawCount_eq n j hpos hj, hz]
      simp

/-- Witness for C13: the three addresses of threeResolver. -/
theorem resolveID_pick_distribution_witness :
    eligibleSet threeResolver plainRequest ≠ [] ∧
    drawCount (eligibleSet threeResolver plainRequest).length 1
      = 2 ^ 63 / (eligibleSet threeResolver plainRequest).length
        + if 1 < 2 ^ 63 % (eligibleSet threeResolver plainRequest).length then 1 else 0 :=
  ⟨by decide,
    (resolveID_pick_distribution threeResolver plainRequest (by decide)).2.1 1 (by decide)⟩

/-! ## Re-ingestion, filters, other sources -/

theorem Init_ok_identity (s : Resolver) (m : Metadata) (h : (Init s m).2 = none) :
    m.Instance.AppID ≠ "" ∧ m.Instance.Address ≠ "" ∧ 0 < m.Instance.DaprInternalPort := by
  unfold Init at h
  by_cases h1 : m.Instance.AppID = ""
  · simp [h1] at h
  · by_cases h2 : m.Instance.Address = ""
    · simp [h1, h2] at h
    · by_cases h3 : m.Instance.DaprInternalPort ≤ 0
      · simp [h1, h2, h3] at h
      · exact ⟨h1, h2, not_le.mp h3⟩

theorem InitWithMetadata_twice (c : configStringMetadata) (m : Metadata)
    (hid : m.Instance.AppID ≠ "" ∧ m.Instance.Address ≠ "" ∧ 0 < m.Instance.DaprInternalPort) :
    (InitWithMetadata (InitWithMetadata c m).1 m).1 = (InitWithMetadata c m).1 := by
  obtain ⟨h1, h2, h3⟩ := hid
  have h3' : ¬ m.Instance.DaprInternalPort = 0 := by omega
  unfold InitWithMetadata
  simp only [if_neg h1, if_neg h2, if_neg h3']
  cases parseConfig m.Configuration <;> rfl

theorem Init_twice (s : Resolver) (m : Metadata) (h : (Init s m).2 = none) :
    Init (Init s m).1 m = Init s m := by
  have hid := Init_ok_identity s m h
  have h1 := Init_valid s m hid
  cases hr : resolveAppAddress (InitWithMetadata s.configure m).1 with
  | error err =>
    rw [h1, hr] at h
    cases h
  | ok t =>
    rw [hr] at h1
    rw [h1, Init_valid _ m hid]
    simp only [InitWithMetadata_twice s.configure m hid, hr]

/-- C16: if Init with the metadata m returns nil, a second Init with the same m returns nil too,
    and the table it stores resolves every request under every draw as the table of the first
    call does. -/
theorem init_reingestion (s : Resolver) (m : Metadata) (h : (Init s m).2 = none) :
    (Init (Init s m).1 m).2 = none ∧
    ∀ req r, ResolveID (Init (Init s m).1 m).1 req r = ResolveID (Init s m).1 req r := by
  rw [Init_twice s m h]
  exact ⟨h, fun _ _ => rfl⟩

/-- Witness for C16: the example configuration of the specification, ingested twice. -/
theorem init_reingestion_witness :
    (Init NewResolver svcAMetadata).2 = none ∧
    (Init (Init NewResolver svcAMetadata).1 svcAMetadata).2 = none ∧
    ∀ req r, ResolveID (Init (Init NewResolver svcAMetadata).1 svcAMetadata).1 req r
      = ResolveID (Init NewResolver svcAMetadata).1 req r :=
  ⟨by decide, init_reingestion NewResolver svcAMetadata (by decide)⟩

/-- C17: sameVirtualNamespace returns, in source order and with multiplicity, the addresses whose
    extendedInfo maps virtual-namespace to exactly V; noneVirtualNamespace returns, in source
    order, those whose extendedInfo lacks the key; no address is in both results, and an address
    tagged with another value is in neither. -/
theorem filters_order_preserving (addresses : List address) (V : String) :
    sameVirtualNamespace addresses V
      = addresses.filter (fun a => decide (a.ExtendedInfo.get virtualNamespaceKey = some V)) ∧
    noneVirtualNamespace addresses
      = addresses.filter (fun a => decide (a.ExtendedInfo.get virtualNamespaceKey = none)) ∧
    (∀ a, a ∈ sameVirtualNamespace addresses V → a ∉ noneVirtualNamespace addresses) ∧
    (∀ a W, a.ExtendedInfo.get virtualNamespaceKey = some W → W ≠ V →
      a ∉ sameVirtualNamespace addresses V ∧ a ∉ noneVirtualNamespace addresses) := by
  refine ⟨sameVirtualNamespace_eq_filter addresses V, noneVirtualNamespace_eq_filter addresses,
    ?_, ?_⟩
  · intro a hs hn
    have h1 := ((mem_sameVirtualNamespace _ _ _).mp hs).2
    have h2 := ((mem_noneVirtualNamespace _ _).mp hn).2
    rw [h1] at h2
    cases h2
  · intro a W hW hne
    constructor
    · intro hs
      have h1 := ((mem_sameVirtualNamespace _ _ _).mp hs).2
      rw [hW] at h1
      injection h1 with h2
      exact hne h2
    · intro hn
      have h2 := ((mem_noneVirtualNamespace _ _).mp hn).2
      rw [hW] at h2
      cases h2

/-- Witness for C17: a list with a ns1 address twice, an untagged and a ns2 address. -/
theorem filters_order_preserving_witness :
    sameVirtualNamespace [taggedAddress, untaggedAddress, otherTaggedAddress, taggedAddress] "ns1"
      = [taggedAddress, taggedAddress] ∧
    noneVirtualNamespace [taggedAddress, untaggedAddress, otherTaggedAddress, taggedAddress]
      = [untaggedAddress] ∧
    (otherTaggedAddress ∉
        sameVirtualNamespace [taggedAddress, untaggedAddress, otherTaggedAddress, taggedAddress]
          "ns1" ∧
      otherTaggedAddress ∉
        noneVirtualNamespace [taggedAddress, untaggedAddress, otherTaggedAddress, taggedAddress]) :=
  ⟨by decide, by decide,
    (filters_order_preserving
      [taggedAddress, untaggedAddress, otherTaggedAddress, taggedAddress] "ns1").2.2.2
      otherTaggedAddress "ns2" (by decide) (by decide)⟩

/-- C18: resolveAppAddress returns no table and no error for every configuration whose valueType
    is neither jsonStringValue nor yamlStringValue; Init with a valid identity and such a
    configuration record returns nil, stores the nil table, and afterwards ResolveID returns the
    empty string for every request and every draw. -/
theorem init_non_inline_source (s : Resolver) (m : Metadata) (cd : configData)
    (hid : m.Instance.AppID ≠ "" ∧ m.Instance.Address ≠ "" ∧ 0 < m.Instance.DaprInternalPort)
    (hcfg : parseConfig m.Configuration = .ok cd)
    (hty : cd.ValueType ≠ JSON_STRING_VALUE ∧ cd.ValueType ≠ YAML_STRING_VALUE) :
    (∀ c : configStringMetadata, c.valueType = cd.ValueType → resolveAppAddress c = .ok none) ∧
    (Init s m).2 = none ∧ (Init s m).1.appAddress = none ∧
    ∀ req r, ResolveID (Init s m).1 req r = some ("", none) := by
  have hres : ∀ c : configStringMetadata, c.valueType = cd.ValueType →
      resolveAppAddress c = .ok none := by
    intro c hc
    unfold resolveAppAddress
    rw [hc, if_neg hty.1, if_neg hty.2]
    split
    · rfl
    · split <;> rfl
  have key : Init s m
      = ({ appAddress := none, configure := (InitWithMetadata s.configure m).1 }, none) := by
    rw [Init_valid s m hid, hres _ (InitWithMetadata_valid s.configure m cd hid hcfg).1]
  refine ⟨hres, by rw [key], by rw [key], ?_⟩
  intro req r
  rw [key]
  exact ResolveID_of_absent _ req r rfl

/-- Witness for C18: a configuration of type jsonFileValue. -/
theorem init_non_inline_source_witness :
    (Init svcResolver jsonFileMetadata).2 = none ∧
    (Init svcResolver jsonFileMetadata).1.appAddress = none ∧
    ∀ req r, ResolveID (Init svcResolver jsonFileMetadata).1 req r = some ("", none) :=
  (init_non_inline_source svcResolver jsonFileMetadata
    ⟨"jsonFileValue", .string "/etc/dapr/addresses.json"⟩
    ⟨by decide, by decide, by decide⟩ rfl ⟨by decide, by decide⟩).2

theorem ResolveID_reaches (s : Resolver) (req : ResolveRequest) (a : address)
    (ha : a ∈ eligibleSet s req) :
    ∃ r, r < (eligibleSet s req).length ∧
      ResolveID s req r = some (a.IPV4 ++ ":" ++ Itoa a.Port, none) := by
  obtain ⟨i, hi, hget⟩ := List.mem_iff_getElem.mp ha
  refine ⟨i, hi, ?_⟩
  have hpos : 0 < (eligibleSet s req).length := Nat.lt_of_le_of_lt (Nat.zero_le _) hi
  rw [ResolveID_eq, if_pos hpos, Nat.mod_eq_of_lt hi, List.getElem?_eq_getElem hi, hget]

theorem sameVirtualNamespace_length_le (as : List address) (V : String) :
    (sameVirtualNamespace as V).length ≤ as.length := by
  rw [sameVirtualNamespace_eq_filter]
  exact List.length_filter_le _ _

theorem noneVirtualNamespace_length_le (as : List address) :
    (noneVirtualNamespace as).length ≤ as.length := by
  rw [noneVirtualNamespace_eq_filter]
  exact List.length_filter_le _ _

/-- C19: every eligible address is reachable.  Let cands be the candidates listed for the
    requested service id and a one of them.  If the request carries virtual-namespace = V and a is
    tagged V, some draw makes ResolveID return ipv4:port of a.  If the request carries no
    virtual-namespace, or carries V while no candidate is tagged V, and a has no virtual-namespace
    key, some draw makes ResolveID return ipv4:port of a.  The draw can be taken below the number
    of candidates. -/
theorem resolveID_reachable (s : Resolver) (req : ResolveRequest) (cands : List address)
    (a : address) (hc : s.appAddress.get req.ID = some cands) (ha : a ∈ cands) :
    (∀ V, req.Data.get virtualNamespaceKey = some V →
      a.ExtendedInfo.get virtualNamespaceKey = some V →
      ∃ r, r < cands.length ∧
        ResolveID s req r = some (a.IPV4 ++ ":" ++ Itoa a.Port, none)) ∧
    ((req.Data.get virtualNamespaceKey = none ∨
        ∃ V, req.Data.get virtualNamespaceKey = some V ∧
          ∀ b ∈ cands, b.ExtendedInfo.get virtualNamespaceKey ≠ some V) →
      a.ExtendedInfo.get virtualNamespaceKey = none →
      ∃ r, r < cands.length ∧
        ResolveID s req r = some (a.IPV4 ++ ":" ++ Itoa a.Port, none)) := by
  constructor
  · intro V hreq hV
    have hmem : a ∈ sameVirtualNamespace cands V := (mem_sameVirtualNamespace _ _ _).mpr ⟨ha, hV⟩
    have hlen : ¬ (sameVirtualNamespace cands V).length = 0 := by
      simpa [List.length_eq_zero] using List.ne_nil_of_mem hmem
    have hel : eligibleSet s req = sameVirtualNamespace cands V := by
      rw [eligibleSet_attribute s req V hreq, hc]
      simp [hlen]
    obtain ⟨r, hr, hres⟩ := ResolveID_reaches s req a (by rw [hel]; exact hmem)
    rw [hel] at hr
    exact ⟨r, Nat.lt_of_lt_of_le hr (sameVirtualNamespace_length_le cands V), hres⟩
  · intro hcase hnone
    have hmem : a ∈ noneVirtualNamespace cands := (mem_noneVirtualNamespace _ _).mpr ⟨ha, hnone⟩
    have hel : eligibleSet s req = noneVirtualNamespace cands := by
      rcases hcase with hreq | ⟨V, hreq, hno⟩
      · rw [eligibleSet_no_attribute s req hreq, hc]
        rfl
      · rw [eligibleSet_attribute s req V hreq, hc]
        simp only [Option.getD_some]
        rw [sameVirtualNamespace_eq_nil cands V hno]
        rfl
    obtain ⟨r, hr, hres⟩ := ResolveID_reaches s req a (by rw [hel]; exact hmem)
    rw [hel] at hr
    exact ⟨r, Nat.lt_of_lt_of_le hr (noneVirtualNamespace_length_le cands), hres⟩

/-- Witness for C19: in svcResolver the request for ns1 reaches the address tagged ns1, and the
    request for ns2, which tags no candidate, reaches the untagged address. -/
theorem resolveID_reachable_witness :
    (∃ r, r < [taggedAddress, untaggedAddress].length ∧
      ResolveID svcResolver ns1Request r = some ("10.0.0.1:8080", none)) ∧
    (∃ r, r < [taggedAddress, untaggedAddress].length ∧
      ResolveID svcResolver ns2Request r = some ("10.0.0.2:9090", none)) :=
  ⟨(resolveID_reachable svcResolver ns1Request [taggedAddress, untaggedAddress] taggedAddress
      (by decide) (by decide)).1 "ns1" (by decide) (by decide),
   (resolveID_reachable svcResolver ns2Request [taggedAddress, untaggedAddress] untaggedAddress
      (by decide) (by decide)).2 (Or.inr ⟨"ns2", by decide, by decide⟩) (by decide)⟩

theorem InitWithMetadata_rejects (c : configStringMetadata) (m : Metadata)
    (h : m.Instance.AppID = "" ∨ m.Instance.Address = "" ∨ m.Instance.DaprInternalPort = 0) :
    (InitWithMetadata c m).2 ≠ none ∧
    (InitWithMetadata c m).1.valueType = c.valueType ∧
    (InitWithMetadata c m).1.value = c.value := by
  unfold InitWithMetadata
  by_cases h1 : m.Instance.AppID = ""
  · simp [h1]
  · by_cases h2 : m.Instance.Address = ""
    · simp [h1, h2]
    · have h3 : m.Instance.DaprInternalPort = 0 := by
        rcases h with h | h | h
        · exact absurd h h1
        · exact absurd h h2
        · exact h
      simp [h1, h2, h3]

theorem Init_rejects_port (s : Resolver) (m : Metadata)
    (h : m.Instance.DaprInternalPort ≤ 0) : (Init s m).2 ≠ none ∧ (Init s m).1 = s := by
  unfold Init
  by_cases h1 : m.Instance.AppID = ""
  · simp [h1]
  · by_cases h2 : m.Instance.Address = ""
    · simp [h1, h2]
    · simp [h1, h2, h]

/-- C20, the claim fails: called with the port -1, which is not greater than 0, InitWithMetadata
    returns nil and sets valueType and value; it is Init that rejects this metadata, before the
    call. -/
theorem initWithMetadata_accepts_negative_port :
    negativePortMetadata.Instance.DaprInternalPort = -1 ∧
    (InitWithMetadata NewResolver.configure negativePortMetadata).2 = none ∧
    (InitWithMetadata NewResolver.configure negativePortMetadata).1.valueType
      = "jsonStringValue" ∧
    (InitWithMetadata NewResolver.configure negativePortMetadata).1.value = svcAValue ∧
    (Init NewResolver negativePortMetadata).2 = some (errors_New "port is missing or invalid") := by
  refine ⟨?_, ?_, ?_, ?_, ?_⟩ <;> rfl

/-- C20, amended: InitWithMetadata returns an error whenever the appID is empty, the address is
    empty or the port is 0, and then leaves valueType and value as they were; a port below 0 is
    not rejected by InitWithMetadata but by its only caller Init, which returns an error for
    every port not greater than 0 and leaves the resolver, valueType and value included, as it
    was. -/
theorem initWithMetadata_identity (c : configStringMetadata) (s : Resolver) (m : Metadata) :
    ((m.Instance.AppID = "" ∨ m.Instance.Address = "" ∨ m.Instance.DaprInternalPort = 0) →
      (InitWithMetadata c m).2 ≠ none ∧
      (InitWithMetadata c m).1.valueType = c.valueType ∧
      (InitWithMetadata c m).1.value = c.value) ∧
    (m.Instance.DaprInternalPort ≤ 0 →
      (Init s m).2 ≠ none ∧ (Init s m).1 = s ∧
      (Init s m).1.configure.valueType = s.configure.valueType ∧
      (Init s m).1.configure.value = s.configure.value) := by
  refine ⟨InitWithMetadata_rejects c m, ?_⟩
  intro h
  obtain ⟨h1, h2⟩ := Init_rejects_port s m h
  exact ⟨h1, h2, by rw [h2], by rw [h2]⟩

/-- Witness for C20: on a configuration that holds valueType jsonFileValue, an empty appID, an
    empty address and the port 0 are rejected by InitWithMetadata, which keeps that valueType and
    value although the metadata carries jsonStringValue; the port -1 is rejected by Init. -/
theorem initWithMetadata_identity_witness :
    fileResolver.configure.valueType = "jsonFileValue" ∧
    ((InitWithMetadata fileResolver.configure noNameMetadata).2 ≠ none ∧
      (InitWithMetadata fileResolver.configure noNameMetadata).1.valueType
        = fileResolver.configure.valueType ∧
      (InitWithMetadata fileResolver.configure noNameMetadata).1.value
        = fileResolver.configure.value) ∧
    ((InitWithMetadata fileResolver.configure noAddressMetadata).2 ≠ none ∧
      (InitWithMetadata fileResolver.configure noAddressMetadata).1.valueType
        = fileResolver.configure.valueType ∧
      (InitWithMetadata fileResolver.configure noAddressMetadata).1.value
        = fileResolver.configure.value) ∧
    ((InitWithMetadata fileResolver.configure zeroPortMetadata).2 ≠ none ∧
      (InitWithMetadata fileResolver.configure zeroPortMetadata).1.valueType
        = fileResolver.configure.valueType ∧
      (InitWithMetadata fileResolver.configure zeroPortMetadata).1.value
        = fileResolver.configure.value) ∧
    ((Init fileResolver negativePortMetadata).2 ≠ none ∧
      (Init fileResolver negativePortMetadata).1 = fileResolver ∧
      (Init fileResolver negativePortMetadata).1.configure.valueType
        = fileResolver.configure.valueType ∧
      (Init fileResolver negativePortMetadata).1.configure.value
        = fileResolver.configure.value) :=
  ⟨rfl,
   (initWithMetadata_identity fileResolver.configure fileResolver noNameMetadata).1 (Or.inl rfl),
   (initWithMetadata_identity fileResolver.configure fileResolver noAddressMetadata).1
      (Or.inr (Or.inl rfl)),
   (initWithMetadata_identity fileResolver.configure fileResolver zeroPortMetadata).1
      (Or.inr (Or.inr rfl)),
   (initWithMetadata_identity fileResolver.configure fileResolver negativePortMetadata).2
      (by decide)⟩

end Configurestring
